import Mathlib

/-! Verification of the alert-orchestration and photo-relay subsystem of the
EE4216 Group 4 IoT security system (ESP32-S3 firmware).

The C++ sources are shallowly embedded: pure helpers become Lean functions
over `List Char` / `Nat` / `Int`; the FreeRTOS tasks and the interrupt
handler become explicit state-passing step functions; the network is an
explicit script of attempt outcomes.  `unsigned long` (32-bit) millis
differences are modelled with `Int.emod 4294967296`. -/

/-- Character list of a string literal (the bytes of an Arduino `String`). -/
def sl (s : String) : List Char := s.data

set_option maxRecDepth 8000

/-- Index of the first occurrence of `d` as a contiguous run inside `s`
(the C++ `String::indexOf`). -/
def findSeq (d s : List Char) : Option Nat :=
  if d <+: s then some 0
  else
    match s with
    | [] => none
    | _ :: t => (findSeq d t).map (· + 1)

theorem findSeq_some_imp (d s : List Char) (i : Nat) (h : findSeq d s = some i) :
    d <+: s.drop i := by
  induction s generalizing i with
  | nil =>
    unfold findSeq at h
    by_cases hp : d <+: ([] : List Char)
    · simp [hp] at h; subst h; simpa using hp
    · simp [hp] at h
  | cons a t ih =>
    unfold findSeq at h
    by_cases hp : d <+: a :: t
    · simp [hp] at h; subst h; simpa using hp
    · simp only [hp, if_false, Option.map_eq_some'] at h
      obtain ⟨j, hj, rfl⟩ := h
      simpa using ih j hj

theorem findSeq_min (d s : List Char) (i : Nat) (h : findSeq d s = some i) :
    ∀ j < i, ¬ d <+: s.drop j := by
  induction s generalizing i with
  | nil =>
    unfold findSeq at h
    by_cases hp : d <+: ([] : List Char)
    · simp [hp] at h; subst h; intro j hj; omega
    · simp [hp] at h
  | cons a t ih =>
    unfold findSeq at h
    by_cases hp : d <+: a :: t
    · simp [hp] at h; subst h; intro j hj; omega
    · simp only [hp, if_false, Option.map_eq_some'] at h
      obtain ⟨k, hk, rfl⟩ := h
      intro j hj
      match j with
      | 0 => simpa using hp
      | j + 1 =>
        have := ih k hk j (by omega)
        simpa using this

theorem findSeq_some_of_occ (d s : List Char) (j : Nat) (h : d <+: s.drop j) :
    findSeq d s ≠ none := by
  intro hn
  induction s generalizing j with
  | nil =>
    unfold findSeq at hn
    by_cases hp : d <+: ([] : List Char)
    · simp [hp] at hn
    · exact hp (by simpa using h)
  | cons a t ih =>
    unfold findSeq at hn
    by_cases hp : d <+: a :: t
    · simp [hp] at hn
    · simp only [hp, if_false, Option.map_eq_none'] at hn
      match j with
      | 0 => exact hp (by simpa using h)
      | j + 1 => exact ih j (by simpa using h) hn

theorem findSeq_eq_some (d s : List Char) (i : Nat) (hocc : d <+: s.drop i)
    (hmin : ∀ j < i, ¬ d <+: s.drop j) : findSeq d s = some i := by
  induction s generalizing i with
  | nil =>
    match i with
    | 0 =>
      simp only [List.drop_nil] at hocc
      unfold findSeq; simp [hocc]
    | i + 1 =>
      exfalso
      exact hmin 0 (by omega) (by simpa using hocc)
  | cons a t ih =>
    match i with
    | 0 =>
      simp only [List.drop_zero] at hocc
      unfold findSeq; simp [hocc]
    | i + 1 =>
      have h0 : ¬ d <+: a :: t := by simpa using hmin 0 (by omega)
      unfold findSeq
      simp only [h0, if_false]
      have ht : findSeq d t = some i := by
        apply ih i (by simpa using hocc)
        intro j hj
        have := hmin (j + 1) (by omega)
        simpa using this
      simp [ht]

theorem findSeq_eq_none (d s : List Char) (h : ∀ j, ¬ d <+: s.drop j) :
    findSeq d s = none := by
  cases hf : findSeq d s with
  | none => rfl
  | some i => exact absurd (findSeq_some_imp d s i hf) (h i)

/-- A prefix of an append that fits inside the left part is a prefix of the
left part. -/
theorem prefix_left_of_length_le {x y w : List Char} (h : x <+: y ++ w)
    (hl : x.length ≤ y.length) : x <+: y := by
  have hx : x = (y ++ w).take x.length := List.prefix_iff_eq_take.mp h
  rw [List.take_append_of_le_length hl] at hx
  rw [hx]
  exact List.take_prefix _ _

theorem infix_of_prefix_drop {x y : List Char} {i : Nat} (h : x <+: y.drop i) :
    x <:+: y := by
  obtain ⟨t, ht⟩ := h
  exact ⟨y.take i, t, by rw [List.append_assoc, ht, List.take_append_drop]⟩

/-- If `d` has no occurrence inside `a ++ d` other than the final one, the
first occurrence of `d` in `a ++ d ++ t` is exactly at index `a.length`. -/
theorem findSeq_append (d a t : List Char) (hd : d ≠ [])
    (hno : ¬ d <:+: a ++ d.dropLast) :
    findSeq d (a ++ (d ++ t)) = some a.length := by
  apply findSeq_eq_some
  · rw [List.drop_left]
    exact ⟨t, rfl⟩
  · intro j hj hpre
    apply hno
    rw [List.drop_append_of_le_length (by omega)] at hpre
    have hsplit : a.drop j ++ (d ++ t) =
        (a.drop j ++ d.dropLast) ++ (d.getLast hd :: t) := by
      conv_lhs => rw [← List.dropLast_append_getLast hd]
      simp [List.append_assoc]
    rw [hsplit] at hpre
    have hdlen : 1 ≤ d.length := by
      cases d with
      | nil => exact absurd rfl hd
      | cons _ _ => simp
    have hfit : d.length ≤ (a.drop j ++ d.dropLast).length := by
      simp only [List.length_append, List.length_drop, List.length_dropLast]
      omega
    have hpre2 : d <+: a.drop j ++ d.dropLast := prefix_left_of_length_le hpre hfit
    have hdrop : d <+: (a ++ d.dropLast).drop j := by
      rw [List.drop_append_of_le_length (by omega)]
      exact hpre2
    exact infix_of_prefix_drop hdrop

/-- Split `s` on every occurrence of the token `d`, left to right — the way
a receiver re-splits a multipart body on its boundary token. -/
def splitOnSeq (d s : List Char) : List (List Char) :=
  if hd : d = [] then [s]
  else
    match hf : findSeq d s with
    | none => [s]
    | some i => s.take i :: splitOnSeq d (s.drop (i + d.length))
termination_by s.length
decreasing_by
  simp only [List.length_drop]
  have hpre := findSeq_some_imp d s i hf
  have h1 : d.length ≤ (s.drop i).length := hpre.length_le
  simp only [List.length_drop] at h1
  have hd1 : 1 ≤ d.length := by
    cases d with
    | nil => exact absurd rfl hd
    | cons _ _ => simp
  omega

theorem splitOnSeq_cons (d a t : List Char) (hd : d ≠ [])
    (hno : ¬ d <:+: a ++ d.dropLast) :
    splitOnSeq d (a ++ (d ++ t)) = a :: splitOnSeq d t := by
  rw [splitOnSeq, dif_neg hd]
  have hfs := findSeq_append d a t hd hno
  split
  · next hf => rw [hf] at hfs; exact absurd hfs (by simp)
  · next i hf =>
    rw [hf] at hfs
    injection hfs with hi
    subst hi
    congr 1
    · exact List.take_left a (d ++ t)
    · congr 1
      rw [← List.append_assoc]
      have hlen : a.length + d.length = (a ++ d).length := by simp
      rw [hlen, List.drop_left]

theorem splitOnSeq_single (d s : List Char) (h : ¬ d <:+: s) :
    splitOnSeq d s = [s] := by
  rw [splitOnSeq]
  by_cases hd : d = []
  · rw [dif_pos hd]
  · rw [dif_neg hd]
    have hn : findSeq d s = none :=
      findSeq_eq_none d s (fun j hp => h (infix_of_prefix_drop hp))
    split
    · rfl
    · next i hf => rw [hf] at hn; exact absurd hn (by simp)

/-- Recover the value of one multipart form part: cut everything up to and
including the first blank line (CRLF CRLF), then strip the trailing CRLF. -/
def extractField (p : List Char) : List Char :=
  match findSeq (sl "\r\n\r\n") p with
  | none => []
  | some i => ((p.drop (i + 4)).dropLast).dropLast

theorem extractField_eq (h v : List Char)
    (hno : ¬ sl "\r\n\r\n" <:+: h ++ sl "\r\n\r") :
    extractField (h ++ (sl "\r\n\r\n" ++ (v ++ sl "\r\n"))) = v := by
  have hdl : (sl "\r\n\r\n").dropLast = sl "\r\n\r" := rfl
  have hf := findSeq_append (sl "\r\n\r\n") h (v ++ sl "\r\n")
    (by decide) (by rw [hdl]; exact hno)
  unfold extractField
  rw [hf]
  have h1 : (h ++ (sl "\r\n\r\n" ++ (v ++ sl "\r\n"))).drop (h.length + 4)
      = v ++ sl "\r\n" := by
    rw [← List.append_assoc]
    have hlen : h.length + 4 = (h ++ sl "\r\n\r\n").length := by
      have : (sl "\r\n\r\n").length = 4 := rfl
      simp [this]
    rw [hlen, List.drop_left]
  simp only [h1]
  have h2 : v ++ sl "\r\n" = (v ++ ['\r']) ++ ['\n'] := by
    have : sl "\r\n" = ['\r', '\n'] := rfl
    rw [this]
    simp
  rw [h2, List.dropLast_concat, List.dropLast_concat]

/-! ## Motion debounce ISR and alert task
(motion module `onMotion` / `Motion::motionDetected`, scheduler.cpp
`taskAlert`). -/

/-- 32-bit unsigned subtraction `now - last` as the ESP32 computes it on
`unsigned long` millis values. -/
def elapsed32 (now last : Nat) : Int :=
  ((now : Int) - (last : Int)).emod 4294967296

structure MotionState where
  motionFlag : Bool
  lastTriggerTime : Nat
  lastAlertTime : Nat
  deriving DecidableEq

/-- Boot state: `motionFlag = false`, both timestamps 0. -/
def initialMotionState : MotionState := ⟨false, 0, 0⟩

/-- The PIR interrupt handler `onMotion`: accept the trigger only if
strictly more than 5000 ms passed since `lastTriggerTime`. -/
def onMotionStep (now : Nat) (s : MotionState) : MotionState :=
  if elapsed32 now s.lastTriggerTime > 5000 then
    { s with motionFlag := true, lastTriggerTime := now }
  else s

/-- `Motion::motionDetected`: report whether the flag was set and clear it
(single-shot behaviour). -/
def motionDetectedStep (s : MotionState) : Bool × MotionState :=
  if s.motionFlag then (true, { s with motionFlag := false }) else (false, s)

/-- One iteration of the `taskAlert` loop body at time `now`: poll the
flag; when motion is observed and the 60 s cooldown has elapsed, capture
and deliver (reported as `some now`, the start time of the alert sequence)
and restart the cooldown. -/
def alertPollStep (now : Nat) (s : MotionState) : MotionState × Option Nat :=
  let p := motionDetectedStep s
  if p.1 then
    if elapsed32 now p.2.lastAlertTime ≥ 60000 then
      ({ p.2 with lastAlertTime := now }, some now)
    else (p.2, none)
  else (p.2, none)

inductive SysEvent where
  | isr (t : Nat)
  | poll (t : Nat)
  deriving DecidableEq

def SysEvent.time : SysEvent → Nat
  | .isr t => t
  | .poll t => t

/-- Interleaved execution of the interrupt handler and the alert task;
returns the final state and the start times of all alert sequences. -/
def runSys (s : MotionState) : List SysEvent → MotionState × List Nat
  | [] => (s, [])
  | .isr t :: rest => runSys (onMotionStep t s) rest
  | .poll t :: rest =>
    let p := alertPollStep t s
    let r := runSys p.1 rest
    (r.1, match p.2 with
          | some x => x :: r.2
          | none => r.2)

theorem cooldown_gap (t1 t2 : Nat) (hle : t1 ≤ t2)
    (h : elapsed32 t2 t1 ≥ 60000) : t1 + 60000 ≤ t2 := by
  by_contra hc
  push_neg at hc
  have hnn : (0 : Int) ≤ (t2 : Int) - (t1 : Int) := by omega
  have hlt : (t2 : Int) - (t1 : Int) < 4294967296 := by omega
  have heq : elapsed32 t2 t1 = (t2 : Int) - (t1 : Int) :=
    Int.emod_eq_of_lt hnn hlt
  rw [heq] at h
  omega

theorem runSys_gap (s : MotionState) (evs : List SysEvent)
    (hmono : List.Pairwise (fun a b => a.time ≤ b.time) evs)
    (hlb : ∀ e ∈ evs, s.lastAlertTime ≤ e.time) :
    List.Pairwise (fun a b => a + 60000 ≤ b) (runSys s evs).2 ∧
    ∀ x ∈ (runSys s evs).2, s.lastAlertTime + 60000 ≤ x := by
  induction evs generalizing s with
  | nil => simp [runSys]
  | cons e rest ih =>
    have hmono' := (List.pairwise_cons.mp hmono).2
    have hhead := (List.pairwise_cons.mp hmono).1
    cases e with
    | isr t =>
      have hpres : (onMotionStep t s).lastAlertTime = s.lastAlertTime := by
        unfold onMotionStep; split <;> rfl
      simp only [runSys]
      have ihr := ih (onMotionStep t s) hmono'
        (fun e he => by rw [hpres]; exact hlb e (List.mem_cons_of_mem _ he))
      refine ⟨ihr.1, fun x hx => ?_⟩
      have hx2 := ihr.2 x hx
      rw [hpres] at hx2
      exact hx2
    | poll t =>
      have hlbt : s.lastAlertTime ≤ t := hlb _ (List.mem_cons_self _ _)
      by_cases hf : s.motionFlag
      · by_cases hg : elapsed32 t s.lastAlertTime ≥ 60000
        · have hstep : alertPollStep t s =
              ({ s with motionFlag := false, lastAlertTime := t }, some t) := by
            unfold alertPollStep motionDetectedStep
            simp [hf, hg]
          simp only [runSys, hstep]
          have hgap : s.lastAlertTime + 60000 ≤ t := cooldown_gap _ _ hlbt hg
          have ihr := ih { s with motionFlag := false, lastAlertTime := t }
            hmono' (fun e he => by simpa using hhead e he)
          constructor
          · exact List.pairwise_cons.mpr ⟨fun x hx => ihr.2 x hx, ihr.1⟩
          · intro x hx
            rcases List.mem_cons.mp hx with rfl | hx'
            · exact hgap
            · have hx2 : t + 60000 ≤ x := ihr.2 x hx'
              omega
        · have hstep : alertPollStep t s =
              ({ s with motionFlag := false }, none) := by
            unfold alertPollStep motionDetectedStep
            simp [hf, hg]
          simp only [runSys, hstep]
          exact ih { s with motionFlag := false } hmono'
            (fun e he => by simpa using hlb e (List.mem_cons_of_mem _ he))
      · have hstep : alertPollStep t s = (s, none) := by
          unfold alertPollStep motionDetectedStep
          simp [hf]
        simp only [runSys, hstep]
        exact ih s hmono' (fun e he => hlb e (List.mem_cons_of_mem _ he))

/-- From a state with the flag clear, a run consisting solely of polls
(no interrupt ever firing) never starts an alert sequence. -/
theorem runPolls_no_alert (s : MotionState) (ts : List Nat)
    (hf : s.motionFlag = false) :
    (runSys s (ts.map SysEvent.poll)).2 = [] := by
  induction ts generalizing s with
  | nil => simp [runSys]
  | cons t rest ih =>
    have hstep : alertPollStep t s = (s, none) := by
      unfold alertPollStep motionDetectedStep
      simp [hf]
    simp only [List.map_cons, runSys, hstep]
    exact ih s hf

/-! ## Weather threshold alerts (alerts.cpp `Alerts::checkWeatherAlerts`).
DHT22 float readings are embedded as `Option ℚ`: `none` models a NaN
reading, `some v` a valid value; only order comparisons against the
compile-time limits occur, which `ℚ` represents exactly. -/

def TEMP_LIMIT : ℚ := 34
def HUM_LIMIT : ℚ := 90

structure SensorDataM where
  temp : Option ℚ
  hum : Option ℚ
  deriving DecidableEq

structure WeatherAlertState where
  tempAlertSent : Bool
  humAlertSent : Bool
  deriving DecidableEq

/-- Observable side effects of one weather check, in execution order. -/
inductive WAction where
  | tempAlertText (v : ℚ)
  | humAlertText (v : ℚ)
  | delayMs (n : Nat)
  | mqttAlert (reason : String)
  deriving DecidableEq

/-- The temperature block of `Alerts::checkWeatherAlerts`. -/
def tempCheck (d : SensorDataM) (st : WeatherAlertState) :
    WeatherAlertState × List WAction :=
  match d.temp with
  | some v =>
    if v > TEMP_LIMIT then
      if ¬ st.tempAlertSent then
        ({ st with tempAlertSent := true },
         [.tempAlertText v, .delayMs 1000, .mqttAlert "high_temperature"])
      else (st, [])
    else ({ st with tempAlertSent := false }, [])
  | none => ({ st with tempAlertSent := false }, [])

/-- The humidity block of `Alerts::checkWeatherAlerts`. -/
def humCheck (d : SensorDataM) (st : WeatherAlertState) :
    WeatherAlertState × List WAction :=
  match d.hum with
  | some v =>
    if v > HUM_LIMIT then
      if ¬ st.humAlertSent then
        ({ st with humAlertSent := true },
         [.humAlertText v, .delayMs 1000, .mqttAlert "high_humidity"])
      else (st, [])
    else ({ st with humAlertSent := false }, [])
  | none => ({ st with humAlertSent := false }, [])

/-- `Alerts::checkWeatherAlerts`: the temperature block runs first, then
the humidity block, on the state the first block left behind. -/
def checkWeatherAlerts (d : SensorDataM) (st : WeatherAlertState) :
    WeatherAlertState × List WAction :=
  let t := tempCheck d st
  let h := humCheck d t.1
  (h.1, t.2 ++ h.2)

/-! ## Private-URL classification (scheduler.cpp `isPrivateHttpUrl`). -/

/-- The 19 literal host prefixes tested by the lambda, in source order. -/
def reservedHostStarts : List (List Char) :=
  [sl "10.", sl "192.168.", sl "127.", sl "172.16.", sl "172.17.",
   sl "172.18.", sl "172.19.", sl "172.20.", sl "172.21.", sl "172.22.",
   sl "172.23.", sl "172.24.", sl "172.25.", sl "172.26.", sl "172.27.",
   sl "172.28.", sl "172.29.", sl "172.30.", sl "172.31."]

/-- The crude host extraction of the lambda: `rest.indexOf('/')`, then the
substring before it (all of `rest` when there is no slash). -/
def hostUpToSlash (rest : List Char) : List Char :=
  match findSeq ['/'] rest with
  | none => rest
  | some slash => rest.take slash

/-- The `isPrivateHttpUrl` lambda from `Telegram::sendAlert`: scheme check,
crude host extraction (`indexOf("://")`, then up to the first slash), then
literal prefix tests — no hostname resolution. -/
def isPrivateHttpUrl (u : List Char) : Bool :=
  if ¬ (sl "http://" <+: u ∨ sl "https://" <+: u) then false
  else
    match findSeq (sl "://") u with
    | none => false
    | some schemeEnd =>
      let rest := u.drop (schemeEnd + 3)
      reservedHostStarts.any (fun p => p.isPrefixOf (hostUpToSlash rest))

/-- Spec-side reading of §4.4: the host portion is everything between the
scheme and the first slash. -/
def hostPortion (u : List Char) : List Char :=
  if sl "http://" <+: u then (u.drop 7).takeWhile (· ≠ '/')
  else if sl "https://" <+: u then (u.drop 8).takeWhile (· ≠ '/')
  else []

theorem not_colon_no_sep (c : Char) (w : List Char) (hc : c ≠ ':') :
    ¬ sl "://" <+: c :: w := by
  intro hp
  have hp2 : (':' :: sl "//") <+: c :: w := hp
  exact hc ((List.cons_prefix_cons.mp hp2).1).symm

theorem findSeq_http (v : List Char) :
    findSeq (sl "://") (sl "http://" ++ v) = some 4 := by
  apply findSeq_eq_some
  · exact ⟨v, rfl⟩
  · intro j hj hpre
    interval_cases j
    · exact not_colon_no_sep 'h' (sl "ttp://" ++ v) (by decide) hpre
    · exact not_colon_no_sep 't' (sl "tp://" ++ v) (by decide) hpre
    · exact not_colon_no_sep 't' (sl "p://" ++ v) (by decide) hpre
    · exact not_colon_no_sep 'p' (sl "://" ++ v) (by decide) hpre

theorem findSeq_https (v : List Char) :
    findSeq (sl "://") (sl "https://" ++ v) = some 5 := by
  apply findSeq_eq_some
  · exact ⟨v, rfl⟩
  · intro j hj hpre
    interval_cases j
    · exact not_colon_no_sep 'h' (sl "ttps://" ++ v) (by decide) hpre
    · exact not_colon_no_sep 't' (sl "tps://" ++ v) (by decide) hpre
    · exact not_colon_no_sep 't' (sl "ps://" ++ v) (by decide) hpre
    · exact not_colon_no_sep 'p' (sl "s://" ++ v) (by decide) hpre
    · exact not_colon_no_sep 's' (sl "://" ++ v) (by decide) hpre

/-- Taking up to the first slash (the code's `indexOf('/')` + `substring`)
is taking while characters differ from a slash. -/
theorem hostUpToSlash_eq_takeWhile (s : List Char) :
    hostUpToSlash s = s.takeWhile (· ≠ '/') := by
  induction s with
  | nil => rfl
  | cons a t ih =>
    unfold hostUpToSlash at ih ⊢
    unfold findSeq
    by_cases ha : a = '/'
    · have hp : ['/'] <+: a :: t := by rw [ha]; exact ⟨t, rfl⟩
      simp [hp, List.takeWhile_cons, ha]
    · have hg : ¬ (['/'] <+: a :: t) :=
        fun hp => ha ((List.cons_prefix_cons.mp hp).1).symm
      simp only [hg, if_false]
      cases hf : findSeq ['/'] t with
      | none =>
        simp only [hf, ne_eq, decide_not] at ih
        simp [hf, List.takeWhile_cons, ha, ← ih]
      | some j =>
        simp only [hf, ne_eq, decide_not] at ih
        simp [hf, List.takeWhile_cons, ha, ← ih, List.take_succ_cons]

theorem http_not_before_https (v : List Char) :
    ¬ sl "http://" <+: sl "https://" ++ v := by
  intro h
  have h2 : sl "http://" <+: sl "https://" :=
    prefix_left_of_length_le h (by decide)
  exact absurd h2 (by decide)

theorem isPrivateHttpUrl_http (v : List Char) :
    isPrivateHttpUrl (sl "http://" ++ v) =
      reservedHostStarts.any (fun p => p.isPrefixOf (v.takeWhile (· ≠ '/'))) := by
  unfold isPrivateHttpUrl
  have hpre : sl "http://" <+: sl "http://" ++ v := ⟨v, rfl⟩
  rw [if_neg (not_not_intro (Or.inl hpre))]
  have hdrop : (sl "http://" ++ v).drop (4 + 3) = v := by
    have h7 : (4 : Nat) + 3 = (sl "http://").length := rfl
    rw [h7, List.drop_left]
  simp only [findSeq_http, hdrop, hostUpToSlash_eq_takeWhile]

theorem isPrivateHttpUrl_https (v : List Char) :
    isPrivateHttpUrl (sl "https://" ++ v) =
      reservedHostStarts.any (fun p => p.isPrefixOf (v.takeWhile (· ≠ '/'))) := by
  unfold isPrivateHttpUrl
  have hpre : sl "https://" <+: sl "https://" ++ v := ⟨v, rfl⟩
  rw [if_neg (not_not_intro (Or.inr hpre))]
  have hdrop : (sl "https://" ++ v).drop (5 + 3) = v := by
    have h8 : (5 : Nat) + 3 = (sl "https://").length := rfl
    rw [h8, List.drop_left]
  simp only [findSeq_https, hdrop, hostUpToSlash_eq_takeWhile]

theorem isPrivateHttpUrl_no_scheme (u : List Char)
    (h : ¬ (sl "http://" <+: u ∨ sl "https://" <+: u)) :
    isPrivateHttpUrl u = false := by
  unfold isPrivateHttpUrl
  rw [if_pos h]

theorem hostPortion_http (v : List Char) :
    hostPortion (sl "http://" ++ v) = v.takeWhile (· ≠ '/') := by
  unfold hostPortion
  rw [if_pos ⟨v, rfl⟩]
  have h7 : (7 : Nat) = (sl "http://").length := rfl
  rw [h7, List.drop_left]

theorem hostPortion_https (v : List Char) :
    hostPortion (sl "https://" ++ v) = v.takeWhile (· ≠ '/') := by
  unfold hostPortion
  rw [if_neg (http_not_before_https v), if_pos ⟨v, rfl⟩]
  have h8 : (8 : Nat) = (sl "https://").length := rfl
  rw [h8, List.drop_left]

/-! ## Image fetch over the private network (scheduler.cpp
`Telegram::sendAlert`, STEP 1).  The camera's byte stream is a script:
chunks that become available at given millis offsets (relative to the
start of the attempt's read loop), plus an optional time at which the peer
closes the connection.  `delay(20)` in the idle branch advances model
time; reads are instantaneous. -/

structure Chunk where
  arrivesAt : Nat
  bytes : List Nat
  deriving DecidableEq

structure StreamModel where
  chunks : List Chunk
  closeTime : Option Nat
  deriving DecidableEq

/-- Bytes that have arrived from the camera by time `t`. -/
def arrivedBy (s : StreamModel) (t : Nat) : List Nat :=
  ((s.chunks.filter (fun c => c.arrivesAt ≤ t)).map Chunk.bytes).join

/-- `imgClient.connected()` at time `t`. -/
def connectedAt (s : StreamModel) (t : Nat) : Bool :=
  match s.closeTime with
  | none => true
  | some c => t < c

structure ReadState where
  time : Nat
  readTotal : Nat
  lastProgress : Nat
  cap : Nat
  deriving DecidableEq

inductive ExitReason where
  | streamEnd    -- connection no longer open, no data pending
  | idleTimeout  -- 12 s without forward progress, still connected
  | gotAll       -- readTotal reached the declared Content-Length
  | growFail     -- realloc failure while growing the dynamic buffer
  | outOfFuel    -- model artefact: iteration bound exhausted
  deriving DecidableEq

/-- The stream-reading `while (true)` loop of the fetch step: idle wait
with 12 s timeout, read capped at the declared length when known,
capacity-doubling growth when unknown.  Returns total bytes read and the
exit reason.  `fuel` bounds the iterations (the C++ loop has no bound; a
run that exits with a real reason is independent of the bound chosen). -/
def readLoop (s : StreamModel) (contentLength : Int) (growOk : Bool) :
    Nat → ReadState → Nat × ExitReason
  | 0, st => (st.readTotal, .outOfFuel)
  | fuel + 1, st =>
    let avail := (arrivedBy s st.time).length - st.readTotal
    if avail = 0 then
      if connectedAt s st.time ∧ st.time - st.lastProgress < 12000 then
        readLoop s contentLength growOk fuel { st with time := st.time + 20 }
      else if connectedAt s st.time then (st.readTotal, .idleTimeout)
      else (st.readTotal, .streamEnd)
    else
      if contentLength > 0 then
        let toRead := min avail (contentLength.toNat - st.readTotal)
        let rt := st.readTotal + toRead
        if rt = contentLength.toNat then (rt, .gotAll)
        else
          readLoop s contentLength growOk fuel
            { st with readTotal := rt, lastProgress := st.time }
      else
        if st.readTotal + avail > st.cap then
          if growOk then
            readLoop s contentLength growOk fuel
              { st with readTotal := st.readTotal + avail,
                        lastProgress := st.time,
                        cap := max (st.cap * 2) (st.readTotal + avail) }
          else (st.readTotal, .growFail)
        else
          readLoop s contentLength growOk fuel
            { st with readTotal := st.readTotal + avail,
                      lastProgress := st.time }

structure AttemptIn where
  code : Int          -- result of `imgHttp.GET()`
  contentLength : Int -- `imgHttp.getSize()`; `≤ 0` means unknown/chunked
  allocOk : Bool      -- the initial image `malloc` succeeds
  growOk : Bool       -- every `realloc` while growing succeeds
  stream : StreamModel
  deriving DecidableEq

/-- Buffer-lifecycle and Telegram API events of the photo path, tagged by
the fetch attempt owning the image allocation. -/
inductive Ev where
  | allocBuf (attempt : Nat)   -- malloc of the image buffer
  | freeBuf (attempt : Nat)    -- free of that image buffer
  | copyToBody (attempt : Nat) -- memcpy of the fetched bytes into the body
  | uploadPost (k : Nat)       -- POST sendPhoto multipart, attempt k
  | urlSend                    -- GET sendPhoto?photo=<url> (URL method)
  | textSend                   -- GET sendMessage (text only)
  deriving DecidableEq

structure AttemptOut where
  events : List Ev
  readTotal : Nat
  exit : Option ExitReason  -- `none` when the read loop never ran
  ok : Bool
  deriving DecidableEq

/-- One fetch attempt: GET, malloc, the read loop, then the completeness
checks (short read / zero bytes free the buffer and fail the attempt). -/
def fetchAttempt (i fuel : Nat) (a : AttemptIn) : AttemptOut :=
  if a.code ≠ 200 then ⟨[], 0, none, false⟩
  else if ¬ a.allocOk then ⟨[], 0, none, false⟩
  else
    let cap0 := if a.contentLength > 0 then a.contentLength.toNat else 8192
    let r := readLoop a.stream a.contentLength a.growOk fuel ⟨0, 0, 0, cap0⟩
    if a.contentLength > 0 ∧ r.1 ≠ a.contentLength.toNat then
      ⟨[.allocBuf i, .freeBuf i], r.1, some r.2, false⟩
    else if r.1 = 0 then
      ⟨[.allocBuf i, .freeBuf i], r.1, some r.2, false⟩
    else
      ⟨[.allocBuf i], r.1, some r.2, true⟩

/-- The `do … while (fetchAttempt < maxFetchAttempts)` retry loop; stops
at the first successful attempt, returning its index. -/
def fetchPhase (fuel : Nat) : Nat → List AttemptIn → List Ev × Option Nat
  | _, [] => ([], none)
  | i, a :: rest =>
    let o := fetchAttempt i fuel a
    if o.ok then (o.events, some i)
    else
      let r := fetchPhase fuel (i + 1) rest
      (o.events ++ r.1, r.2)

/-- The upload retry loop (STEP 2): POST the assembled body for each
scripted status; on 200 free the image buffer and return success. -/
def uploadLoop (imgA : Nat) : Nat → List Int → List Ev × Bool
  | _, [] => ([], false)
  | k, c :: rest =>
    if c = 200 then ([.uploadPost k, .freeBuf imgA], true)
    else
      let r := uploadLoop imgA (k + 1) rest
      (.uploadPost k :: r.1, r.2)

/-- The JSON extraction step of `Telegram::sendAlert`: when the capture
result begins with the structured-document marker, run the (external
ArduinoJson) parser, abstracted as `parse`; `parse u = some url` models
`!error && doc.containsKey("url")`, and `none` models a parse error or a
missing `url` key — in which case `imageUrl` keeps its initial value, the
raw input. -/
def resolvePhotoRef (parse : List Char → Option (List Char))
    (photoURL : List Char) : List Char :=
  if sl "\x7b" <+: photoURL then
    match parse photoURL with
    | some u => u
    | none => photoURL
  else photoURL

structure NetScript where
  fetches : List AttemptIn  -- scripted fetch attempts
  bodyAllocOk : Bool        -- `new (std::nothrow) uint8_t[totalLen]`
  upCodes : List Int        -- scripted upload POST statuses
  fuel : Nat                -- iteration bound for the read loops

/-- The last Telegram API request a `sendAlert` run actually issues. -/
inductive Outcome where
  | photoUploaded                  -- multipart upload succeeded (200)
  | urlPhotoSent (url : List Char) -- GET sendPhoto?photo=<url> was issued
  | textOnlySent                   -- GET sendMessage was issued
  deriving DecidableEq

/-- Control flow of `Telegram::sendAlert text photoURL`: empty reference
means text only; otherwise resolve the reference, and when it is private
fetch + multipart-upload with the URL method as fall-through, else the URL
method directly. -/
def sendAlertM (parse : List Char → Option (List Char))
    (photoURL : List Char) (net : NetScript) : List Ev × Outcome :=
  if photoURL = [] then ([.textSend], .textOnlySent)
  else
    let imageUrl := resolvePhotoRef parse photoURL
    if isPrivateHttpUrl imageUrl then
      let f := fetchPhase net.fuel 1 (net.fetches.take 3)
      match f.2 with
      | some i =>
        if ¬ net.bodyAllocOk then
          (f.1 ++ [.freeBuf i, .urlSend], .urlPhotoSent imageUrl)
        else
          let u := uploadLoop i 1 (net.upCodes.take 3)
          if u.2 then (f.1 ++ (.copyToBody i :: u.1), .photoUploaded)
          else (f.1 ++ (.copyToBody i :: u.1) ++ [.freeBuf i, .urlSend],
                .urlPhotoSent imageUrl)
      | none => (f.1 ++ [.urlSend], .urlPhotoSent imageUrl)
    else ([.urlSend], .urlPhotoSent imageUrl)

/-! ## Multipart assembly (scheduler.cpp `Telegram::sendAlert`, STEP 2).
`b` is the boundary value (`"----ESP32Boundary" + String(millis())` in the
code — time-derived, kept as a parameter); recipient id, caption and image
are the three ordered form fields. -/

def multipartPre (b chat caption : List Char) : List Char :=
  sl "--" ++ b
  ++ sl "\r\nContent-Disposition: form-data; name=\"chat_id\"\r\n\r\n"
  ++ chat ++ sl "\r\n--" ++ b
  ++ sl "\r\nContent-Disposition: form-data; name=\"caption\"\r\n\r\n"
  ++ caption ++ sl "\r\n--" ++ b
  ++ sl "\r\nContent-Disposition: form-data; name=\"photo\"; filename=\"image.jpg\"\r\nContent-Type: image/jpeg\r\n\r\n"

def multipartPost (b : List Char) : List Char :=
  sl "\r\n--" ++ b ++ sl "--\r\n"

/-- `memcpy(body, pre); memcpy(body + …, img); memcpy(body + …, post)`:
one contiguous buffer. -/
def assembleMultipart (b chat caption img : List Char) : List Char :=
  multipartPre b chat caption ++ img ++ multipartPost b

/-- Spec-side receiver (§8): re-split the payload by its boundary token
`"--" ++ b`, expect the three delimited parts between the leading empty
part and the terminator, and recover each field value. -/
def parseMultipart (b payload : List Char) :
    Option (List Char × List Char × List Char) :=
  match splitOnSeq (sl "--" ++ b) payload with
  | [_, p1, p2, p3, _] => some (extractField p1, extractField p2, extractField p3)
  | _ => none

theorem not_infix_self_dropLast (d : List Char) (hd : d ≠ []) :
    ¬ d <:+: d.dropLast := by
  intro h
  have hlen := h.length_le
  have hdl : d.dropLast.length = d.length - 1 := List.length_dropLast d
  have hd1 : 1 ≤ d.length := by
    cases d with
    | nil => exact absurd rfl hd
    | cons _ _ => simp
  omega

theorem boundary_token_ne_nil (b : List Char) : sl "--" ++ b ≠ [] := by
  intro h
  exact absurd (List.append_eq_nil.mp h).1 (by decide)

/-- Re-splitting an assembled multipart payload on its boundary token
recovers the recipient id, the caption and the image bytes exactly,
provided the token collides with none of the three parts. -/
theorem parseMultipart_assemble (b chat caption img : List Char)
    (h1 : ¬ (sl "--" ++ b) <:+:
      (sl "\r\nContent-Disposition: form-data; name=\"chat_id\"\r\n\r\n"
        ++ (chat ++ sl "\r\n")) ++ (sl "--" ++ b).dropLast)
    (h2 : ¬ (sl "--" ++ b) <:+:
      (sl "\r\nContent-Disposition: form-data; name=\"caption\"\r\n\r\n"
        ++ (caption ++ sl "\r\n")) ++ (sl "--" ++ b).dropLast)
    (h3 : ¬ (sl "--" ++ b) <:+:
      (sl "\r\nContent-Disposition: form-data; name=\"photo\"; filename=\"image.jpg\"\r\nContent-Type: image/jpeg\r\n\r\n"
        ++ (img ++ sl "\r\n")) ++ (sl "--" ++ b).dropLast)
    (h4 : ¬ (sl "--" ++ b) <:+: sl "--\r\n") :
    parseMultipart b (assembleMultipart b chat caption img)
      = some (chat, caption, img) := by
  have htok : sl "--" ++ b ≠ [] := boundary_token_ne_nil b
  have hrn : sl "\r\n--" = sl "\r\n" ++ sl "--" := rfl
  have hshape : assembleMultipart b chat caption img
      = [] ++ ((sl "--" ++ b)
        ++ ((sl "\r\nContent-Disposition: form-data; name=\"chat_id\"\r\n\r\n"
              ++ (chat ++ sl "\r\n"))
          ++ ((sl "--" ++ b)
            ++ ((sl "\r\nContent-Disposition: form-data; name=\"caption\"\r\n\r\n"
                  ++ (caption ++ sl "\r\n"))
              ++ ((sl "--" ++ b)
                ++ ((sl "\r\nContent-Disposition: form-data; name=\"photo\"; filename=\"image.jpg\"\r\nContent-Type: image/jpeg\r\n\r\n"
                      ++ (img ++ sl "\r\n"))
                  ++ ((sl "--" ++ b) ++ sl "--\r\n"))))))) := by
    simp only [assembleMultipart, multipartPre, multipartPost, hrn,
      List.append_assoc, List.nil_append]
  have s0 := splitOnSeq_cons (sl "--" ++ b) []
    ((sl "\r\nContent-Disposition: form-data; name=\"chat_id\"\r\n\r\n"
        ++ (chat ++ sl "\r\n"))
      ++ ((sl "--" ++ b)
        ++ ((sl "\r\nContent-Disposition: form-data; name=\"caption\"\r\n\r\n"
              ++ (caption ++ sl "\r\n"))
          ++ ((sl "--" ++ b)
            ++ ((sl "\r\nContent-Disposition: form-data; name=\"photo\"; filename=\"image.jpg\"\r\nContent-Type: image/jpeg\r\n\r\n"
                  ++ (img ++ sl "\r\n"))
              ++ ((sl "--" ++ b) ++ sl "--\r\n"))))))
    htok (by simpa using not_infix_self_dropLast _ htok)
  have s1 := splitOnSeq_cons (sl "--" ++ b)
    (sl "\r\nContent-Disposition: form-data; name=\"chat_id\"\r\n\r\n"
      ++ (chat ++ sl "\r\n"))
    ((sl "\r\nContent-Disposition: form-data; name=\"caption\"\r\n\r\n"
        ++ (caption ++ sl "\r\n"))
      ++ ((sl "--" ++ b)
        ++ ((sl "\r\nContent-Disposition: form-data; name=\"photo\"; filename=\"image.jpg\"\r\nContent-Type: image/jpeg\r\n\r\n"
              ++ (img ++ sl "\r\n"))
          ++ ((sl "--" ++ b) ++ sl "--\r\n"))))
    htok h1
  have s2 := splitOnSeq_cons (sl "--" ++ b)
    (sl "\r\nContent-Disposition: form-data; name=\"caption\"\r\n\r\n"
      ++ (caption ++ sl "\r\n"))
    ((sl "\r\nContent-Disposition: form-data; name=\"photo\"; filename=\"image.jpg\"\r\nContent-Type: image/jpeg\r\n\r\n"
        ++ (img ++ sl "\r\n"))
      ++ ((sl "--" ++ b) ++ sl "--\r\n"))
    htok h2
  have s3 := splitOnSeq_cons (sl "--" ++ b)
    (sl "\r\nContent-Disposition: form-data; name=\"photo\"; filename=\"image.jpg\"\r\nContent-Type: image/jpeg\r\n\r\n"
      ++ (img ++ sl "\r\n"))
    (sl "--\r\n")
    htok h3
  have s4 := splitOnSeq_single (sl "--" ++ b) (sl "--\r\n") h4
  unfold parseMultipart
  rw [hshape, s0, s1, s2, s3, s4]
  have e1 : extractField
      (sl "\r\nContent-Disposition: form-data; name=\"chat_id\"\r\n\r\n"
        ++ (chat ++ sl "\r\n")) = chat := by
    have hh : sl "\r\nContent-Disposition: form-data; name=\"chat_id\"\r\n\r\n"
        ++ (chat ++ sl "\r\n")
        = sl "\r\nContent-Disposition: form-data; name=\"chat_id\""
          ++ (sl "\r\n\r\n" ++ (chat ++ sl "\r\n")) := by
      rw [show sl "\r\nContent-Disposition: form-data; name=\"chat_id\"\r\n\r\n"
          = sl "\r\nContent-Disposition: form-data; name=\"chat_id\""
            ++ sl "\r\n\r\n" from rfl, List.append_assoc]
    rw [hh]
    exact extractField_eq _ chat (by decide)
  have e2 : extractField
      (sl "\r\nContent-Disposition: form-data; name=\"caption\"\r\n\r\n"
        ++ (caption ++ sl "\r\n")) = caption := by
    have hh : sl "\r\nContent-Disposition: form-data; name=\"caption\"\r\n\r\n"
        ++ (caption ++ sl "\r\n")
        = sl "\r\nContent-Disposition: form-data; name=\"caption\""
          ++ (sl "\r\n\r\n" ++ (caption ++ sl "\r\n")) := by
      rw [show sl "\r\nContent-Disposition: form-data; name=\"caption\"\r\n\r\n"
          = sl "\r\nContent-Disposition: form-data; name=\"caption\""
            ++ sl "\r\n\r\n" from rfl, List.append_assoc]
    rw [hh]
    exact extractField_eq _ caption (by decide)
  have e3 : extractField
      (sl "\r\nContent-Disposition: form-data; name=\"photo\"; filename=\"image.jpg\"\r\nContent-Type: image/jpeg\r\n\r\n"
        ++ (img ++ sl "\r\n")) = img := by
    have hh : sl "\r\nContent-Disposition: form-data; name=\"photo\"; filename=\"image.jpg\"\r\nContent-Type: image/jpeg\r\n\r\n"
        ++ (img ++ sl "\r\n")
        = sl "\r\nContent-Disposition: form-data; name=\"photo\"; filename=\"image.jpg\"\r\nContent-Type: image/jpeg"
          ++ (sl "\r\n\r\n" ++ (img ++ sl "\r\n")) := by
      rw [show sl "\r\nContent-Disposition: form-data; name=\"photo\"; filename=\"image.jpg\"\r\nContent-Type: image/jpeg\r\n\r\n"
          = sl "\r\nContent-Disposition: form-data; name=\"photo\"; filename=\"image.jpg\"\r\nContent-Type: image/jpeg"
            ++ sl "\r\n\r\n" from rfl, List.append_assoc]
    rw [hh]
    exact extractField_eq _ img (by decide)
  simp only [e1, e2, e3]

/-- With a declared length, the read loop either exits `gotAll` having read
exactly that length, or exits another way strictly short of it: it never
reads past the declared length. -/
theorem readLoop_known (s : StreamModel) (len : Int) (g : Bool) (fuel : Nat)
    (st : ReadState) (hl : 0 < len) (hst : st.readTotal < len.toNat) :
    ((readLoop s len g fuel st).2 = .gotAll ∧
      (readLoop s len g fuel st).1 = len.toNat) ∨
    ((readLoop s len g fuel st).2 ≠ .gotAll ∧
      (readLoop s len g fuel st).1 < len.toNat) := by
  induction fuel generalizing st with
  | zero =>
    right
    exact ⟨by simp [readLoop], by simpa [readLoop] using hst⟩
  | succ fuel ih =>
    unfold readLoop
    by_cases h0 : (arrivedBy s st.time).length - st.readTotal = 0
    · simp only [h0, if_true, if_pos rfl]
      by_cases hc : connectedAt s st.time = true ∧ st.time - st.lastProgress < 12000
      · simp only [hc, and_self, if_true, if_pos]
        exact ih _ hst
      · simp only [if_neg hc]
        by_cases hcon : connectedAt s st.time = true
        · simp only [hcon, if_true, if_pos]
          right; exact ⟨by simp, hst⟩
        · simp only [hcon, if_false, if_neg]
          right; exact ⟨by simp, hst⟩
    · simp only [if_neg h0]
      rw [if_pos hl]
      by_cases hrt : st.readTotal +
          min ((arrivedBy s st.time).length - st.readTotal)
            (len.toNat - st.readTotal) = len.toNat
      · rw [if_pos hrt]
        left; exact ⟨rfl, hrt⟩
      · rw [if_neg hrt]
        apply ih
        show st.readTotal +
            min ((arrivedBy s st.time).length - st.readTotal)
              (len.toNat - st.readTotal) < len.toNat
        have hmin : min ((arrivedBy s st.time).length - st.readTotal)
            (len.toNat - st.readTotal) ≤ len.toNat - st.readTotal :=
          Nat.min_le_right _ _
        omega

/-- Exhaustive case analysis of one fetch attempt. -/
theorem fetchAttempt_spec (i fuel : Nat) (a : AttemptIn) :
    (fetchAttempt i fuel a = ⟨[], 0, none, false⟩ ∧
      (a.code ≠ 200 ∨ a.allocOk = false)) ∨
    (∃ rt : Nat, ∃ ex : ExitReason,
      (rt, ex) = readLoop a.stream a.contentLength a.growOk fuel
          ⟨0, 0, 0, if a.contentLength > 0 then a.contentLength.toNat else 8192⟩ ∧
      ((0 < a.contentLength ∧ rt ≠ a.contentLength.toNat ∧
          fetchAttempt i fuel a = ⟨[.allocBuf i, .freeBuf i], rt, some ex, false⟩) ∨
       (¬ (0 < a.contentLength ∧ rt ≠ a.contentLength.toNat) ∧ rt = 0 ∧
          fetchAttempt i fuel a = ⟨[.allocBuf i, .freeBuf i], rt, some ex, false⟩) ∨
       (¬ (0 < a.contentLength ∧ rt ≠ a.contentLength.toNat) ∧ rt ≠ 0 ∧
          fetchAttempt i fuel a = ⟨[.allocBuf i], rt, some ex, true⟩))) := by
  unfold fetchAttempt
  split_ifs with h1 h2 h3 h4 h5
  · exact Or.inl ⟨rfl, Or.inl h1⟩
  · exact Or.inl ⟨rfl, Or.inl h1⟩
  · show _ ∨ _
    simp only []
    split_ifs with ha hb
    · exact Or.inr ⟨_, _, rfl, Or.inl ⟨ha.1, ha.2, rfl⟩⟩
    · exact Or.inr ⟨_, _, rfl, Or.inr (Or.inl ⟨ha, hb, rfl⟩)⟩
    · exact Or.inr ⟨_, _, rfl, Or.inr (Or.inr ⟨ha, hb, rfl⟩)⟩
  · show _ ∨ _
    simp only []
    split_ifs with ha hb
    · exact Or.inr ⟨_, _, rfl, Or.inl ⟨ha.1, ha.2, rfl⟩⟩
    · exact Or.inr ⟨_, _, rfl, Or.inr (Or.inl ⟨ha, hb, rfl⟩)⟩
    · exact Or.inr ⟨_, _, rfl, Or.inr (Or.inr ⟨ha, hb, rfl⟩)⟩
  · exact Or.inl ⟨rfl, Or.inr (by simpa using h3)⟩
  · exact Or.inl ⟨rfl, Or.inr (by simpa using h3)⟩

/-- With a declared length, a fetch attempt succeeds iff the bytes read
exactly equal it (the short-read / no-data checks after the loop). -/
theorem fetchAttempt_known_iff (i fuel : Nat) (a : AttemptIn)
    (hl : 0 < a.contentLength) :
    (fetchAttempt i fuel a).ok = true ↔
      (fetchAttempt i fuel a).readTotal = a.contentLength.toNat := by
  have hpos : 0 < a.contentLength.toNat := by omega
  rcases fetchAttempt_spec i fuel a with ⟨heq, _⟩ |
    ⟨rt, ex, _, ⟨_, hne, heq⟩ | ⟨hns, hz, heq⟩ | ⟨hns, hnz, heq⟩⟩
  · rw [heq]; simp; omega
  · rw [heq]; simp [hne]
  · rw [heq]
    push_neg at hns
    have := hns hl
    simp
    omega
  · rw [heq]
    push_neg at hns
    simp [hns hl]

/-- With unknown length (chunked transfer), a fetch attempt succeeds iff
at least one byte was read before the loop exited. -/
theorem fetchAttempt_unknown_iff (i fuel : Nat) (a : AttemptIn)
    (hl : a.contentLength ≤ 0) :
    (fetchAttempt i fuel a).ok = true ↔
      1 ≤ (fetchAttempt i fuel a).readTotal := by
  rcases fetchAttempt_spec i fuel a with ⟨heq, _⟩ |
    ⟨rt, ex, _, ⟨hpos, _, heq⟩ | ⟨_, hz, heq⟩ | ⟨_, hnz, heq⟩⟩
  · rw [heq]; simp
  · exact absurd hpos (by omega)
  · rw [heq]; simp [hz]
  · rw [heq]; simp; omega

/-- The attempt never reads past a declared length. -/
theorem fetchAttempt_le (i fuel : Nat) (a : AttemptIn)
    (hl : 0 < a.contentLength) :
    (fetchAttempt i fuel a).readTotal ≤ a.contentLength.toNat := by
  have hcap : (if a.contentLength > 0 then a.contentLength.toNat else 8192)
      = a.contentLength.toNat := if_pos hl
  have hloop := readLoop_known a.stream a.contentLength a.growOk fuel
    ⟨0, 0, 0, if a.contentLength > 0 then a.contentLength.toNat else 8192⟩
    hl (by simpa using by omega)
  rcases fetchAttempt_spec i fuel a with ⟨heq, _⟩ |
    ⟨rt, ex, hr, ⟨_, _, heq⟩ | ⟨_, hz, heq⟩ | ⟨hns, hnz, heq⟩⟩
  · rw [heq]; simp
  all_goals
    rw [heq]
    rcases hloop with ⟨_, h⟩ | ⟨_, h⟩ <;>
      (rw [← hr] at h; simp at h ⊢; omega)

/-- With a declared length, an idle-timeout abort always means a failed
attempt (a short read). -/
theorem fetchAttempt_idle_fail (i fuel : Nat) (a : AttemptIn)
    (hl : 0 < a.contentLength)
    (hex : (fetchAttempt i fuel a).exit = some .idleTimeout) :
    (fetchAttempt i fuel a).ok = false := by
  have hloop := readLoop_known a.stream a.contentLength a.growOk fuel
    ⟨0, 0, 0, if a.contentLength > 0 then a.contentLength.toNat else 8192⟩
    hl (by simpa using by omega)
  rcases fetchAttempt_spec i fuel a with ⟨heq, _⟩ |
    ⟨rt, ex, hr, ⟨_, _, heq⟩ | ⟨_, hz, heq⟩ | ⟨hns, hnz, heq⟩⟩
  · rw [heq]
  · rw [heq]
  · rw [heq]
  · exfalso
    rw [heq] at hex
    simp at hex
    push_neg at hns
    rcases hloop with ⟨hg, _⟩ | ⟨_, hlt⟩
    · rw [← hr] at hg
      simp at hg
      rw [hg] at hex
      cases hex
    · rw [← hr] at hlt
      simp at hlt
      exact absurd (hns hl) (by omega)

/-- A failed attempt either never allocated, or freed the partial buffer. -/
theorem fetchAttempt_fail_events (i fuel : Nat) (a : AttemptIn)
    (h : (fetchAttempt i fuel a).ok = false) :
    (fetchAttempt i fuel a).events = [] ∨
      (fetchAttempt i fuel a).events = [.allocBuf i, .freeBuf i] := by
  rcases fetchAttempt_spec i fuel a with ⟨heq, _⟩ |
    ⟨rt, ex, _, ⟨_, _, heq⟩ | ⟨_, _, heq⟩ | ⟨_, _, heq⟩⟩
  · rw [heq]; left; rfl
  · rw [heq]; right; rfl
  · rw [heq]; right; rfl
  · rw [heq] at h; simp at h

/-- The retry loop stops within the scripted attempts: a successful index
lies between the starting index and the end of the list. -/
theorem fetchPhase_some_range (fuel : Nat) (as : List AttemptIn)
    (idx i : Nat) (h : (fetchPhase fuel idx as).2 = some i) :
    idx ≤ i ∧ i < idx + as.length := by
  induction as generalizing idx with
  | nil => simp [fetchPhase] at h
  | cons a rest ih =>
    unfold fetchPhase at h
    by_cases ho : (fetchAttempt idx fuel a).ok
    · simp only [ho, if_pos] at h
      injection h with h
      subst h
      simp
    · simp only [ho, if_neg, Bool.false_eq_true, not_false_eq_true] at h
      have := ih (idx + 1) h
      simp only [List.length_cons]
      omega

/-- An attempt's event trace takes one of exactly three shapes. -/
theorem fetchAttempt_shape (i fuel : Nat) (a : AttemptIn) :
    ((fetchAttempt i fuel a).events = [] ∧ (fetchAttempt i fuel a).ok = false) ∨
    ((fetchAttempt i fuel a).events = [.allocBuf i, .freeBuf i] ∧
      (fetchAttempt i fuel a).ok = false) ∨
    ((fetchAttempt i fuel a).events = [.allocBuf i] ∧
      (fetchAttempt i fuel a).ok = true) := by
  rcases fetchAttempt_spec i fuel a with ⟨heq, _⟩ |
    ⟨rt, ex, _, ⟨_, _, heq⟩ | ⟨_, _, heq⟩ | ⟨_, _, heq⟩⟩ <;> rw [heq] <;> simp

theorem fetchPhase_count_lt (fuel : Nat) (as : List AttemptIn) (idx j : Nat)
    (hj : j < idx) :
    (fetchPhase fuel idx as).1.count (.allocBuf j) = 0 ∧
    (fetchPhase fuel idx as).1.count (.freeBuf j) = 0 := by
  induction as generalizing idx with
  | nil => simp [fetchPhase]
  | cons a rest ih =>
    have hne : j ≠ idx := by omega
    unfold fetchPhase
    by_cases ho : (fetchAttempt idx fuel a).ok
    · simp only [ho, if_pos]
      rcases fetchAttempt_shape idx fuel a with ⟨he, _⟩ | ⟨he, _⟩ | ⟨he, _⟩ <;>
        simp [he, List.count_cons, hne]
    · simp only [ho, if_neg, Bool.false_eq_true, not_false_eq_true]
      have ihr := ih (idx + 1) (by omega)
      rcases fetchAttempt_shape idx fuel a with ⟨he, _⟩ | ⟨he, _⟩ | ⟨he, hok⟩
      · simp [he, List.count_append, ihr.1, ihr.2]
      · simp [he, List.count_append, List.count_cons, hne, ihr.1, ihr.2]
      · rw [hok] at ho; exact absurd rfl ho

theorem fetchPhase_count_some (fuel : Nat) (as : List AttemptIn) (idx j : Nat)
    (h : (fetchPhase fuel idx as).2 = some j) :
    (fetchPhase fuel idx as).1.count (.allocBuf j) = 1 ∧
    (fetchPhase fuel idx as).1.count (.freeBuf j) = 0 := by
  induction as generalizing idx with
  | nil => simp [fetchPhase] at h
  | cons a rest ih =>
    unfold fetchPhase at h ⊢
    by_cases ho : (fetchAttempt idx fuel a).ok
    · simp only [ho, if_pos] at h ⊢
      injection h with h
      subst h
      rcases fetchAttempt_shape idx fuel a with ⟨_, hok⟩ | ⟨_, hok⟩ | ⟨he, _⟩
      · rw [hok] at ho; exact absurd ho (by simp)
      · rw [hok] at ho; exact absurd ho (by simp)
      · simp [he, List.count_cons]
    · simp only [ho, if_neg, Bool.false_eq_true, not_false_eq_true] at h ⊢
      have ihr := ih (idx + 1) h
      have hrange := fetchPhase_some_range fuel rest (idx + 1) j h
      have hne : j ≠ idx := by omega
      rcases fetchAttempt_shape idx fuel a with ⟨he, _⟩ | ⟨he, _⟩ | ⟨he, hok⟩
      · simp [he, List.count_append, ihr.1, ihr.2]
      · simp [he, List.count_append, List.count_cons, hne, ihr.1, ihr.2]
      · rw [hok] at ho; exact absurd rfl ho

theorem fetchPhase_count_other (fuel : Nat) (as : List AttemptIn) (idx j : Nat)
    (h : (fetchPhase fuel idx as).2 ≠ some j) :
    (fetchPhase fuel idx as).1.count (.allocBuf j) =
      (fetchPhase fuel idx as).1.count (.freeBuf j) := by
  induction as generalizing idx with
  | nil => simp [fetchPhase]
  | cons a rest ih =>
    unfold fetchPhase at h ⊢
    by_cases ho : (fetchAttempt idx fuel a).ok
    · simp only [ho, if_pos] at h ⊢
      have hne : j ≠ idx := fun he => h (by rw [he])
      rcases fetchAttempt_shape idx fuel a with ⟨he, _⟩ | ⟨he, _⟩ | ⟨he, _⟩ <;>
        simp [he, List.count_cons, hne]
    · simp only [ho, if_neg, Bool.false_eq_true, not_false_eq_true] at h ⊢
      have ihr := ih (idx + 1) h
      rcases fetchAttempt_shape idx fuel a with ⟨he, _⟩ | ⟨he, _⟩ | ⟨he, hok⟩
      · simp [he, List.count_append, ihr]
      · by_cases hne : j = idx
        · subst hne
          simp [he, List.count_append, List.count_cons, ihr]
        · simp [he, List.count_append, List.count_cons, hne, ihr]
      · rw [hok] at ho; exact absurd rfl ho

theorem fetchPhase_count_le_one (fuel : Nat) (as : List AttemptIn)
    (idx j : Nat) :
    (fetchPhase fuel idx as).1.count (.allocBuf j) ≤ 1 := by
  induction as generalizing idx with
  | nil => simp [fetchPhase]
  | cons a rest ih =>
    unfold fetchPhase
    by_cases ho : (fetchAttempt idx fuel a).ok
    · simp only [ho, if_pos]
      rcases fetchAttempt_shape idx fuel a with ⟨he, _⟩ | ⟨he, _⟩ | ⟨he, _⟩ <;>
        by_cases hne : j = idx <;> simp [he, List.count_cons, hne]
    · simp only [ho, if_neg, Bool.false_eq_true, not_false_eq_true]
      by_cases hne : j = idx
      · subst hne
        have hlt := (fetchPhase_count_lt fuel rest (j + 1) j (by omega)).1
        rcases fetchAttempt_shape j fuel a with ⟨he, _⟩ | ⟨he, _⟩ | ⟨he, _⟩ <;>
          simp [he, List.count_append, List.count_cons, hlt]
      · have ihr := ih (idx + 1)
        rcases fetchAttempt_shape idx fuel a with ⟨he, _⟩ | ⟨he, _⟩ | ⟨he, _⟩ <;>
          simp [he, List.count_append, List.count_cons, hne, ihr]

theorem fetchPhase_count_copy (fuel : Nat) (as : List AttemptIn)
    (idx j : Nat) :
    (fetchPhase fuel idx as).1.count (.copyToBody j) = 0 := by
  induction as generalizing idx with
  | nil => simp [fetchPhase]
  | cons a rest ih =>
    unfold fetchPhase
    by_cases ho : (fetchAttempt idx fuel a).ok
    · simp only [ho, if_pos]
      rcases fetchAttempt_shape idx fuel a with ⟨he, _⟩ | ⟨he, _⟩ | ⟨he, _⟩ <;>
        simp [he, List.count_cons]
    · simp only [ho, if_neg, Bool.false_eq_true, not_false_eq_true]
      rcases fetchAttempt_shape idx fuel a with ⟨he, _⟩ | ⟨he, _⟩ | ⟨he, _⟩ <;>
        simp [he, List.count_append, List.count_cons, ih (idx + 1)]

theorem uploadLoop_count_alloc (imgA k : Nat) (cs : List Int) (j : Nat) :
    (uploadLoop imgA k cs).1.count (.allocBuf j) = 0 := by
  induction cs generalizing k with
  | nil => simp [uploadLoop]
  | cons c rest ih =>
    unfold uploadLoop
    by_cases hc : c = 200 <;> simp [hc, List.count_cons, ih (k + 1)]

theorem uploadLoop_count_copy (imgA k : Nat) (cs : List Int) (j : Nat) :
    (uploadLoop imgA k cs).1.count (.copyToBody j) = 0 := by
  induction cs generalizing k with
  | nil => simp [uploadLoop]
  | cons c rest ih =>
    unfold uploadLoop
    by_cases hc : c = 200 <;> simp [hc, List.count_cons, ih (k + 1)]

theorem uploadLoop_count_free (imgA k : Nat) (cs : List Int) (j : Nat) :
    (uploadLoop imgA k cs).1.count (.freeBuf j) =
      if (uploadLoop imgA k cs).2 = true ∧ j = imgA then 1 else 0 := by
  induction cs generalizing k with
  | nil => simp [uploadLoop]
  | cons c rest ih =>
    unfold uploadLoop
    by_cases hc : c = 200
    · by_cases hj : j = imgA <;> simp [hc, hj, List.count_cons]
    · simp only [hc, if_neg, if_false]
      by_cases hj : j = imgA
      · subst hj
        simp [List.count_cons, ih (k + 1)]
      · simp [hj, List.count_cons, ih (k + 1)]

/-- Exhaustive case analysis of a `sendAlert` run. -/
theorem sendAlertM_spec (parse : List Char → Option (List Char))
    (u : List Char) (net : NetScript) :
    (u = [] ∧ sendAlertM parse u net = ([.textSend], .textOnlySent)) ∨
    (u ≠ [] ∧ isPrivateHttpUrl (resolvePhotoRef parse u) = false ∧
      sendAlertM parse u net
        = ([.urlSend], .urlPhotoSent (resolvePhotoRef parse u))) ∨
    (u ≠ [] ∧ isPrivateHttpUrl (resolvePhotoRef parse u) = true ∧
      (fetchPhase net.fuel 1 (net.fetches.take 3)).2 = none ∧
      sendAlertM parse u net
        = ((fetchPhase net.fuel 1 (net.fetches.take 3)).1 ++ [.urlSend],
           .urlPhotoSent (resolvePhotoRef parse u))) ∨
    (∃ i, u ≠ [] ∧ isPrivateHttpUrl (resolvePhotoRef parse u) = true ∧
      (fetchPhase net.fuel 1 (net.fetches.take 3)).2 = some i ∧
      net.bodyAllocOk = false ∧
      sendAlertM parse u net
        = ((fetchPhase net.fuel 1 (net.fetches.take 3)).1
            ++ [.freeBuf i, .urlSend],
           .urlPhotoSent (resolvePhotoRef parse u))) ∨
    (∃ i, u ≠ [] ∧ isPrivateHttpUrl (resolvePhotoRef parse u) = true ∧
      (fetchPhase net.fuel 1 (net.fetches.take 3)).2 = some i ∧
      net.bodyAllocOk = true ∧
      (uploadLoop i 1 (net.upCodes.take 3)).2 = true ∧
      sendAlertM parse u net
        = ((fetchPhase net.fuel 1 (net.fetches.take 3)).1
            ++ (.copyToBody i :: (uploadLoop i 1 (net.upCodes.take 3)).1),
           .photoUploaded)) ∨
    (∃ i, u ≠ [] ∧ isPrivateHttpUrl (resolvePhotoRef parse u) = true ∧
      (fetchPhase net.fuel 1 (net.fetches.take 3)).2 = some i ∧
      net.bodyAllocOk = true ∧
      (uploadLoop i 1 (net.upCodes.take 3)).2 = false ∧
      sendAlertM parse u net
        = ((fetchPhase net.fuel 1 (net.fetches.take 3)).1
            ++ (.copyToBody i :: (uploadLoop i 1 (net.upCodes.take 3)).1)
            ++ [.freeBuf i, .urlSend],
           .urlPhotoSent (resolvePhotoRef parse u))) := by
  by_cases hu : u = []
  · exact Or.inl ⟨hu, by unfold sendAlertM; rw [if_pos hu]⟩
  · by_cases hp : isPrivateHttpUrl (resolvePhotoRef parse u) = true
    · cases hf2 : (fetchPhase net.fuel 1 (net.fetches.take 3)).2 with
      | none =>
        refine Or.inr (Or.inr (Or.inl ⟨hu, hp, rfl, ?_⟩))
        unfold sendAlertM
        rw [if_neg hu]
        simp only [hp, if_pos, hf2]
      | some i =>
        by_cases hb : net.bodyAllocOk = true
        · by_cases hul : (uploadLoop i 1 (net.upCodes.take 3)).2 = true
          · refine Or.inr (Or.inr (Or.inr (Or.inr (Or.inl
              ⟨i, hu, hp, rfl, hb, hul, ?_⟩))))
            unfold sendAlertM
            rw [if_neg hu]
            simp only [hp, if_pos, hf2, hb, hul, not_true, if_false,
              if_true]
          · refine Or.inr (Or.inr (Or.inr (Or.inr (Or.inr
              ⟨i, hu, hp, rfl, hb, by simpa using hul, ?_⟩))))
            unfold sendAlertM
            rw [if_neg hu]
            simp only [hp, if_pos, hf2, hb, not_true, if_false]
            simp only [Bool.not_eq_true] at hul
            simp only [hul, Bool.false_eq_true, if_false]
        · refine Or.inr (Or.inr (Or.inr (Or.inl
            ⟨i, hu, hp, rfl, by simpa using hb, ?_⟩)))
          unfold sendAlertM
          rw [if_neg hu]
          simp only [hp, if_pos, hf2]
          simp only [Bool.not_eq_true] at hb
          simp only [hb, Bool.false_eq_true, not_false_eq_true, if_true]
    · refine Or.inr (Or.inl ⟨hu, by simpa using hp, ?_⟩)
      unfold sendAlertM
      rw [if_neg hu]
      simp only [Bool.not_eq_true] at hp
      simp only [hp, Bool.false_eq_true, if_false]

/-! ## Claims -/

/-- C4: in every alert-loop iteration where motion is observed but less
than the 60000 ms cooldown has elapsed since `lastAlertTime`, no capture
and no delivery occur and `lastAlertTime` is unchanged (only the polled
flag is cleared); consequently, in every chronologically ordered execution
trace from boot, no two motion-alert sequences start closer together than
the cooldown interval. -/
theorem C4_cooldown_spacing (now : Nat) (s : MotionState)
    (evs : List SysEvent) :
    (s.motionFlag = true → elapsed32 now s.lastAlertTime < 60000 →
      alertPollStep now s = ({ s with motionFlag := false }, none)) ∧
    (List.Pairwise (fun a b => a.time ≤ b.time) evs →
      List.Pairwise (fun a b => a + 60000 ≤ b)
        (runSys initialMotionState evs).2) := by
  constructor
  · intro hf hg
    have hng : ¬ elapsed32 now s.lastAlertTime ≥ 60000 := by omega
    unfold alertPollStep motionDetectedStep
    simp [hf, hng]
  · intro hmono
    exact (runSys_gap initialMotionState evs hmono
      (fun e he => Nat.zero_le _)).1

theorem C4_cooldown_spacing_witness :
    alertPollStep 5000 ⟨true, 0, 1000⟩ = (⟨false, 0, 1000⟩, none) ∧
    List.Pairwise (fun a b => a + 60000 ≤ b)
      (runSys initialMotionState
        [SysEvent.isr 6000, SysEvent.poll 7000, SysEvent.isr 80000,
         SysEvent.poll 81000, SysEvent.isr 90000, SysEvent.poll 91000]).2 :=
  ⟨(C4_cooldown_spacing 5000 ⟨true, 0, 1000⟩ []).1 rfl (by decide),
   (C4_cooldown_spacing 0 ⟨false, 0, 0⟩
      [SysEvent.isr 6000, SysEvent.poll 7000, SysEvent.isr 80000,
       SysEvent.poll 81000, SysEvent.isr 90000, SysEvent.poll 91000]).2
     (by decide)⟩

/-- C5 counterexample: raw triggers at 6000 ms and 11000 ms are spaced
exactly 5000 ms ≥ 5000 ms apart, so by the claim the second should set the
pending flag (cleared by the poll at 6500) and update `lastTriggerTime` to
11000; but the ISR requires strictly more than 5000 ms, so the second
trigger is a no-op: the flag stays clear and `lastTriggerTime` stays 6000. -/
theorem C5_debounce_cex :
    11000 - 6000 ≥ 5000 ∧
    (runSys initialMotionState
      [SysEvent.isr 6000, SysEvent.poll 6500,
       SysEvent.isr 11000]).1.motionFlag = false ∧
    (runSys initialMotionState
      [SysEvent.isr 6000, SysEvent.poll 6500,
       SysEvent.isr 11000]).1.lastTriggerTime = 6000 := by
  decide

/-- C5 amended: the ISR accepts a raw trigger iff strictly MORE than
5000 ms (computed in 32-bit unsigned arithmetic) elapsed since the last
accepted trigger: an accepted trigger sets the pending flag and updates
`lastTriggerTime`; a trigger at most 5000 ms after the last accepted one
is a complete no-op (flag and `lastTriggerTime` both unchanged), so among
triggers within that window only the first is accepted. -/
theorem C5_debounce_strict (now : Nat) (s : MotionState) :
    (elapsed32 now s.lastTriggerTime > 5000 →
      onMotionStep now s
        = { s with motionFlag := true, lastTriggerTime := now }) ∧
    (¬ elapsed32 now s.lastTriggerTime > 5000 → onMotionStep now s = s) := by
  unfold onMotionStep
  exact ⟨fun h => if_pos h, fun h => if_neg h⟩

theorem C5_debounce_strict_witness :
    onMotionStep 6000 initialMotionState = ⟨true, 6000, 0⟩ ∧
    onMotionStep 11000 ⟨false, 6000, 0⟩ = ⟨false, 6000, 0⟩ :=
  ⟨(C5_debounce_strict 6000 initialMotionState).1 (by decide),
   (C5_debounce_strict 11000 ⟨false, 6000, 0⟩).2 (by decide)⟩

/-- C6: per metric and per sample: a valid value above its limit while the
metric is NORMAL emits exactly one text alert, then the fixed 1000 ms
rate-limit delay, then one dashboard publish with the metric-specific
reason tag ("high_temperature" / "high_humidity"), and latches ALERTED; a
valid exceeding value while already ALERTED emits nothing; a valid
within-limit value or an invalid (NaN) value resets the metric to NORMAL
emitting nothing; the two metrics are independent and the full check is
the temperature block followed by the humidity block. -/
theorem C6_weather_gate (d : SensorDataM) (st : WeatherAlertState) :
    (∀ v, d.temp = some v → v > TEMP_LIMIT → st.tempAlertSent = false →
      tempCheck d st = ({ st with tempAlertSent := true },
        [.tempAlertText v, .delayMs 1000, .mqttAlert "high_temperature"])) ∧
    (∀ v, d.temp = some v → v > TEMP_LIMIT → st.tempAlertSent = true →
      tempCheck d st = (st, [])) ∧
    ((d.temp = none ∨ ∃ v, d.temp = some v ∧ v ≤ TEMP_LIMIT) →
      tempCheck d st = ({ st with tempAlertSent := false }, [])) ∧
    (∀ v, d.hum = some v → v > HUM_LIMIT → st.humAlertSent = false →
      humCheck d st = ({ st with humAlertSent := true },
        [.humAlertText v, .delayMs 1000, .mqttAlert "high_humidity"])) ∧
    (∀ v, d.hum = some v → v > HUM_LIMIT → st.humAlertSent = true →
      humCheck d st = (st, [])) ∧
    ((d.hum = none ∨ ∃ v, d.hum = some v ∧ v ≤ HUM_LIMIT) →
      humCheck d st = ({ st with humAlertSent := false }, [])) ∧
    ((tempCheck d st).1.humAlertSent = st.humAlertSent) ∧
    ((humCheck d st).1.tempAlertSent = st.tempAlertSent) ∧
    (checkWeatherAlerts d st
      = ((humCheck d (tempCheck d st).1).1,
         (tempCheck d st).2 ++ (humCheck d (tempCheck d st).1).2)) := by
  refine ⟨?_, ?_, ?_, ?_, ?_, ?_, ?_, ?_, rfl⟩
  · intro v hv hgt hns
    unfold tempCheck
    rw [hv]
    simp [hgt, hns]
  · intro v hv hgt hs
    unfold tempCheck
    rw [hv]
    simp [hgt, hs]
  · intro hc
    unfold tempCheck
    rcases hc with hn | ⟨v, hv, hle⟩
    · rw [hn]
    · rw [hv]
      simp [not_lt.mpr hle]
  · intro v hv hgt hns
    unfold humCheck
    rw [hv]
    simp [hgt, hns]
  · intro v hv hgt hs
    unfold humCheck
    rw [hv]
    simp [hgt, hs]
  · intro hc
    unfold humCheck
    rcases hc with hn | ⟨v, hv, hle⟩
    · rw [hn]
    · rw [hv]
      simp [not_lt.mpr hle]
  · unfold tempCheck
    cases d.temp <;> [rfl; (rename_i v; by_cases h : v > TEMP_LIMIT <;>
      by_cases h2 : st.tempAlertSent <;> simp [h, h2])]
  · unfold humCheck
    cases d.hum <;> [rfl; (rename_i v; by_cases h : v > HUM_LIMIT <;>
      by_cases h2 : st.humAlertSent <;> simp [h, h2])]

theorem C6_weather_gate_witness :
    tempCheck ⟨some 35, some 50⟩ ⟨false, false⟩
      = (⟨true, false⟩,
         [.tempAlertText 35, .delayMs 1000, .mqttAlert "high_temperature"]) ∧
    tempCheck ⟨some 35, some 50⟩ ⟨true, false⟩ = (⟨true, false⟩, []) ∧
    tempCheck ⟨some 30, some 50⟩ ⟨true, false⟩ = (⟨false, false⟩, []) ∧
    humCheck ⟨some 35, some 50⟩ ⟨false, false⟩ = (⟨false, false⟩, []) :=
  ⟨(C6_weather_gate ⟨some 35, some 50⟩ ⟨false, false⟩).1 35 rfl
      (by norm_num [TEMP_LIMIT]) rfl,
   (C6_weather_gate ⟨some 35, some 50⟩ ⟨true, false⟩).2.1 35 rfl
      (by norm_num [TEMP_LIMIT]) rfl,
   (C6_weather_gate ⟨some 30, some 50⟩ ⟨true, false⟩).2.2.1
      (Or.inr ⟨30, rfl, by norm_num [TEMP_LIMIT]⟩),
   (C6_weather_gate ⟨some 35, some 50⟩ ⟨false, false⟩).2.2.2.2.2.1
      (Or.inr ⟨50, rfl, by norm_num [HUM_LIMIT]⟩)⟩

/-- C9: the private-network classification returns true iff the locator
begins with http:// or https:// and its host portion (the characters
between the scheme and the first slash) begins, by literal string prefix,
with one of the 19 reserved-range prefixes 10. / 192.168. / 127. /
172.16.–172.31.; it is a pure string computation (no hostname
resolution). -/
theorem C9_private_url_classification (u : List Char) :
    isPrivateHttpUrl u = true ↔
      ((sl "http://" <+: u ∨ sl "https://" <+: u) ∧
        ∃ p ∈ reservedHostStarts, p <+: hostPortion u) := by
  by_cases hs : sl "http://" <+: u ∨ sl "https://" <+: u
  · rcases hs with h | h
    · obtain ⟨v, rfl⟩ := h
      rw [isPrivateHttpUrl_http, hostPortion_http]
      simp only [List.any_eq_true]
      constructor
      · rintro ⟨p, hp, hpre⟩
        exact ⟨Or.inl ⟨v, rfl⟩, p, hp,
          by simpa [ List.isPrefixOf_iff_prefix] using hpre⟩
      · rintro ⟨_, p, hp, hpre⟩
        exact ⟨p, hp, by simpa [ List.isPrefixOf_iff_prefix] using hpre⟩
    · obtain ⟨v, rfl⟩ := h
      rw [isPrivateHttpUrl_https, hostPortion_https]
      simp only [List.any_eq_true]
      constructor
      · rintro ⟨p, hp, hpre⟩
        exact ⟨Or.inr ⟨v, rfl⟩, p, hp,
          by simpa [ List.isPrefixOf_iff_prefix] using hpre⟩
      · rintro ⟨_, p, hp, hpre⟩
        exact ⟨p, hp, by simpa [ List.isPrefixOf_iff_prefix] using hpre⟩
  · rw [isPrivateHttpUrl_no_scheme u hs]
    simp [hs]

/-- C10: every alert-loop poll leaves the motion flag clear — including
polls made while the cooldown has not elapsed — so a trigger arriving
during the cooldown window is consumed and discarded: the poll delivers
nothing, and no sequence of later polls (with no new interrupt) ever
starts an alert from it. -/
theorem C10_trigger_consumed (s : MotionState) (t : Nat) (ts : List Nat) :
    ((alertPollStep t s).1.motionFlag = false) ∧
    (s.motionFlag = true → elapsed32 t s.lastAlertTime < 60000 →
      (alertPollStep t s).2 = none ∧
      (runSys (alertPollStep t s).1 (ts.map SysEvent.poll)).2 = []) := by
  have hclear : (alertPollStep t s).1.motionFlag = false := by
    unfold alertPollStep motionDetectedStep
    by_cases hf : s.motionFlag
    · by_cases hg : elapsed32 t s.lastAlertTime ≥ 60000 <;> simp [hf, hg]
    · simp [hf]
  refine ⟨hclear, fun hf hg => ⟨?_, runPolls_no_alert _ ts hclear⟩⟩
  have hng : ¬ elapsed32 t s.lastAlertTime ≥ 60000 := by omega
  unfold alertPollStep motionDetectedStep
  simp [hf, hng]

theorem C10_trigger_consumed_witness :
    (alertPollStep 1000 ⟨true, 500, 0⟩).1.motionFlag = false ∧
    (alertPollStep 1000 ⟨true, 500, 0⟩).2 = none ∧
    (runSys (alertPollStep 1000 ⟨true, 500, 0⟩).1
      ([70000, 200000].map SysEvent.poll)).2 = [] := by
  have h := C10_trigger_consumed ⟨true, 500, 0⟩ 1000 [70000, 200000]
  exact ⟨h.1, (h.2 rfl (by decide)).1, (h.2 rfl (by decide)).2⟩

/-- C1 (code-bug evaluation): with the real camera reference
http://10.28.158.71/jpg (a private URL, so no usable public URL exists),
a successful fetch and three upload attempts all returning non-success
status 500, the sender issues the URL-method sendPhoto request carrying
that private URL — it does NOT fall back to a text-only send, although the
module's own comments promise "fallback to text-only alerts if image
delivery fails".  All three upload attempts were made (upload exhaustion),
and the run's final request is the URL photo send. -/
theorem C1_upload_exhaustion_no_text_fallback :
    isPrivateHttpUrl (sl "http://10.28.158.71/jpg") = true ∧
    (sendAlertM (fun _ => none) (sl "http://10.28.158.71/jpg")
        ⟨[⟨200, 3, true, true, ⟨[⟨0, [1, 2, 3]⟩], none⟩⟩,
          ⟨200, 3, true, true, ⟨[⟨0, [1, 2, 3]⟩], none⟩⟩,
          ⟨200, 3, true, true, ⟨[⟨0, [1, 2, 3]⟩], none⟩⟩],
         true, [500, 500, 500], 50⟩).1.count (.uploadPost 3) = 1 ∧
    (sendAlertM (fun _ => none) (sl "http://10.28.158.71/jpg")
        ⟨[⟨200, 3, true, true, ⟨[⟨0, [1, 2, 3]⟩], none⟩⟩,
          ⟨200, 3, true, true, ⟨[⟨0, [1, 2, 3]⟩], none⟩⟩,
          ⟨200, 3, true, true, ⟨[⟨0, [1, 2, 3]⟩], none⟩⟩],
         true, [500, 500, 500], 50⟩).2
      = .urlPhotoSent (sl "http://10.28.158.71/jpg") ∧
    (sendAlertM (fun _ => none) (sl "http://10.28.158.71/jpg")
        ⟨[⟨200, 3, true, true, ⟨[⟨0, [1, 2, 3]⟩], none⟩⟩,
          ⟨200, 3, true, true, ⟨[⟨0, [1, 2, 3]⟩], none⟩⟩,
          ⟨200, 3, true, true, ⟨[⟨0, [1, 2, 3]⟩], none⟩⟩],
         true, [500, 500, 500], 50⟩).2
      ≠ .textOnlySent := by
  decide

/-- C2 counterexample: unknown content length, one byte delivered at t=0,
then the connection stalls while staying open for the full 12 s idle
window.  The attempt is aborted by the idle timeout with no clean stream
end — yet it is reported SUCCESSFUL with readTotal = 1, contradicting both
"no forward progress for more than 12 s is aborted as a failure and
retried" and "unknown length ⇒ success requires a clean stream end". -/
theorem C2_stall_success_cex :
    (fetchAttempt 1 700
      ⟨200, -1, true, true, ⟨[⟨0, [42]⟩], none⟩⟩).ok = true ∧
    (fetchAttempt 1 700
      ⟨200, -1, true, true, ⟨[⟨0, [42]⟩], none⟩⟩).exit
        = some .idleTimeout ∧
    (fetchAttempt 1 700
      ⟨200, -1, true, true, ⟨[⟨0, [42]⟩], none⟩⟩).readTotal = 1 := by
  decide

/-- C2 amended: per fetch attempt — declared length ⇒ success iff the
bytes read exactly equal it, and the loop never reads past it; unknown
length ⇒ success iff at least one byte was read when the loop exits (by
clean close or by idle timeout alike); an idle-timeout abort is a failure
whenever a length was declared (short read), and every failed attempt
either never allocated or freed its partial buffer; the retry loop stops
at the first success within the 3-attempt cap. -/
theorem C2_fetch_semantics (i fuel : Nat) (a : AttemptIn)
    (as : List AttemptIn) (j : Nat) :
    (0 < a.contentLength →
      ((fetchAttempt i fuel a).ok = true ↔
        (fetchAttempt i fuel a).readTotal = a.contentLength.toNat)) ∧
    (0 < a.contentLength →
      (fetchAttempt i fuel a).readTotal ≤ a.contentLength.toNat) ∧
    (a.contentLength ≤ 0 →
      ((fetchAttempt i fuel a).ok = true ↔
        1 ≤ (fetchAttempt i fuel a).readTotal)) ∧
    (0 < a.contentLength →
      (fetchAttempt i fuel a).exit = some .idleTimeout →
      (fetchAttempt i fuel a).ok = false) ∧
    ((fetchAttempt i fuel a).ok = false →
      (fetchAttempt i fuel a).events = [] ∨
      (fetchAttempt i fuel a).events = [.allocBuf i, .freeBuf i]) ∧
    ((fetchPhase fuel 1 (as.take 3)).2 = some j → 1 ≤ j ∧ j ≤ 3) := by
  refine ⟨fetchAttempt_known_iff i fuel a, fetchAttempt_le i fuel a,
    fetchAttempt_unknown_iff i fuel a, fetchAttempt_idle_fail i fuel a,
    fetchAttempt_fail_events i fuel a, fun h => ?_⟩
  have hr := fetchPhase_some_range fuel (as.take 3) 1 j h
  have hlen : (as.take 3).length ≤ 3 := by
    simp [List.length_take]
  omega

theorem C2_fetch_semantics_witness :
    (fetchAttempt 1 50
      ⟨200, 3, true, true, ⟨[⟨0, [9, 9, 9]⟩], none⟩⟩).readTotal = 3 ∧
    (fetchAttempt 1 50
      ⟨200, 3, true, true, ⟨[⟨0, [9, 9, 9]⟩], none⟩⟩).ok = true ∧
    (1 ≤ 1 ∧ 1 ≤ 3) := by
  have h := C2_fetch_semantics 1 50
    ⟨200, 3, true, true, ⟨[⟨0, [9, 9, 9]⟩], none⟩⟩
    [⟨200, 3, true, true, ⟨[⟨0, [9, 9, 9]⟩], none⟩⟩] 1
  exact ⟨by decide, (h.1 (by decide)).mpr (by decide),
    h.2.2.2.2.2 (by decide)⟩

/-- C3 counterexample: the malformed structured capture result "(brace)oops"
fails to parse, yet the run does NOT degrade to "no usable photo
reference": the raw marker-prefixed string itself is kept as the locator
and the alert proceeds as a URL photo send carrying it — not as a
reference-less text-only alert. -/
theorem C3_malformed_marker_cex :
    resolvePhotoRef (fun _ => none) (sl "\x7boops") = sl "\x7boops" ∧
    (sendAlertM (fun _ => none) (sl "\x7boops") ⟨[], true, [], 0⟩).2
      = .urlPhotoSent (sl "\x7boops") ∧
    (sendAlertM (fun _ => none) (sl "\x7boops") ⟨[], true, [], 0⟩).2
      ≠ .textOnlySent := by
  decide

/-- C3 amended: a capture result beginning with the structured-document
marker is parsed defensively: if parsing succeeds with a url field the
embedded locator is extracted; if parsing fails or the field is absent the
RAW INPUT ITSELF is used verbatim as the locator (never a fatal error —
the alert still proceeds, through the URL-send path); any input not
beginning with the marker is used verbatim. -/
theorem C3_photo_ref_resolution (parse : List Char → Option (List Char))
    (u : List Char) (net : NetScript) :
    (∀ url, sl "\x7b" <+: u → parse u = some url →
      resolvePhotoRef parse u = url) ∧
    (sl "\x7b" <+: u → parse u = none → resolvePhotoRef parse u = u) ∧
    (¬ sl "\x7b" <+: u → resolvePhotoRef parse u = u) ∧
    (u ≠ [] → sl "\x7b" <+: u → parse u = none →
      isPrivateHttpUrl u = false →
      (sendAlertM parse u net).2 = .urlPhotoSent u) := by
  have hres : ∀ url, sl "\x7b" <+: u → parse u = some url →
      resolvePhotoRef parse u = url := by
    intro url hm hp
    unfold resolvePhotoRef
    rw [if_pos hm, hp]
  have hraw : sl "\x7b" <+: u → parse u = none →
      resolvePhotoRef parse u = u := by
    intro hm hp
    unfold resolvePhotoRef
    rw [if_pos hm, hp]
  have hverb : ¬ sl "\x7b" <+: u → resolvePhotoRef parse u = u := by
    intro hm
    unfold resolvePhotoRef
    rw [if_neg hm]
  refine ⟨hres, hraw, hverb, fun hne hm hp hpriv => ?_⟩
  have hru : resolvePhotoRef parse u = u := hraw hm hp
  rcases sendAlertM_spec parse u net with ⟨hu, _⟩ |
    ⟨_, _, heq⟩ | ⟨_, hpr, _, _⟩ | ⟨i, _, hpr, _⟩ | ⟨i, _, hpr, _⟩ |
    ⟨i, _, hpr, _⟩
  · exact absurd hu hne
  · rw [heq, hru]
  · rw [hru] at hpr; rw [hpr] at hpriv; cases hpriv
  · rw [hru] at hpr; rw [hpr] at hpriv; cases hpriv
  · rw [hru] at hpr; rw [hpr] at hpriv; cases hpriv
  · rw [hru] at hpr; rw [hpr] at hpriv; cases hpriv

theorem C3_photo_ref_resolution_witness :
    resolvePhotoRef (fun _ => some (sl "https://x.example/a.jpg"))
      (sl "\x7b\"url\":\"https://x.example/a.jpg\"\x7d")
      = sl "https://x.example/a.jpg" ∧
    resolvePhotoRef (fun _ => none) (sl "\x7bbad") = sl "\x7bbad" ∧
    resolvePhotoRef (fun _ => none) (sl "http://10.0.0.2/jpg")
      = sl "http://10.0.0.2/jpg" ∧
    (sendAlertM (fun _ => none) (sl "\x7bbad") ⟨[], true, [], 0⟩).2
      = .urlPhotoSent (sl "\x7bbad") := by
  have h1 := C3_photo_ref_resolution
    (fun _ => some (sl "https://x.example/a.jpg"))
    (sl "\x7b\"url\":\"https://x.example/a.jpg\"\x7d") ⟨[], true, [], 0⟩
  have h2 := C3_photo_ref_resolution (fun _ => none) (sl "\x7bbad")
    ⟨[], true, [], 0⟩
  have h3 := C3_photo_ref_resolution (fun _ => none)
    (sl "http://10.0.0.2/jpg") ⟨[], true, [], 0⟩
  exact ⟨h1.1 _ (by decide) rfl, h2.2.1 (by decide) rfl,
    h3.2.2.1 (by decide),
    h2.2.2.2 (by decide) (by decide) rfl (by decide)⟩

/-- C7 counterexample: with the code-shaped boundary "----ESP32Boundary7",
recipient id "1111111111", image bytes "JPG", and a caption that happens to
contain the boundary token ("--" ++ boundary), re-splitting the assembled
payload by the boundary token does NOT yield back the three fields: the
caption collides with the delimiter, the split produces six parts instead
of five, and the parse fails — so the claim's universal quantification
over every caption is false. -/
theorem C7_boundary_collision_cex :
    parseMultipart (sl "----ESP32Boundary7")
        (assembleMultipart (sl "----ESP32Boundary7") (sl "1111111111")
          (sl "--" ++ sl "----ESP32Boundary7") (sl "JPG"))
      ≠ some (sl "1111111111", sl "--" ++ sl "----ESP32Boundary7", sl "JPG") := by
  intro hcontra
  have hd : (sl "--" ++ sl "----ESP32Boundary7") ≠ [] := by decide
  have hsh : assembleMultipart (sl "----ESP32Boundary7") (sl "1111111111")
        (sl "--" ++ sl "----ESP32Boundary7") (sl "JPG")
      = [] ++ ((sl "--" ++ sl "----ESP32Boundary7") ++ (sl "\r\nContent-Disposition: form-data; name=\"chat_id\"\r\n\r\n1111111111\r\n" ++ ((sl "--" ++ sl "----ESP32Boundary7") ++ (sl "\r\nContent-Disposition: form-data; name=\"caption\"\r\n\r\n" ++ ((sl "--" ++ sl "----ESP32Boundary7") ++ (sl "\r\n" ++ ((sl "--" ++ sl "----ESP32Boundary7") ++ (sl "\r\nContent-Disposition: form-data; name=\"photo\"; filename=\"image.jpg\"\r\nContent-Type: image/jpeg\r\n\r\nJPG\r\n" ++ ((sl "--" ++ sl "----ESP32Boundary7") ++ (sl "--\r\n")))))))))) := by decide
  have c0 := splitOnSeq_cons (sl "--" ++ sl "----ESP32Boundary7") [] (sl "\r\nContent-Disposition: form-data; name=\"chat_id\"\r\n\r\n1111111111\r\n" ++ ((sl "--" ++ sl "----ESP32Boundary7") ++ (sl "\r\nContent-Disposition: form-data; name=\"caption\"\r\n\r\n" ++ ((sl "--" ++ sl "----ESP32Boundary7") ++ (sl "\r\n" ++ ((sl "--" ++ sl "----ESP32Boundary7") ++ (sl "\r\nContent-Disposition: form-data; name=\"photo\"; filename=\"image.jpg\"\r\nContent-Type: image/jpeg\r\n\r\nJPG\r\n" ++ ((sl "--" ++ sl "----ESP32Boundary7") ++ (sl "--\r\n"))))))))) hd (by decide)
  have c1 := splitOnSeq_cons (sl "--" ++ sl "----ESP32Boundary7")
    (sl "\r\nContent-Disposition: form-data; name=\"chat_id\"\r\n\r\n1111111111\r\n") (sl "\r\nContent-Disposition: form-data; name=\"caption\"\r\n\r\n" ++ ((sl "--" ++ sl "----ESP32Boundary7") ++ (sl "\r\n" ++ ((sl "--" ++ sl "----ESP32Boundary7") ++ (sl "\r\nContent-Disposition: form-data; name=\"photo\"; filename=\"image.jpg\"\r\nContent-Type: image/jpeg\r\n\r\nJPG\r\n" ++ ((sl "--" ++ sl "----ESP32Boundary7") ++ (sl "--\r\n"))))))) hd (by decide)
  have c2 := splitOnSeq_cons (sl "--" ++ sl "----ESP32Boundary7")
    (sl "\r\nContent-Disposition: form-data; name=\"caption\"\r\n\r\n") (sl "\r\n" ++ ((sl "--" ++ sl "----ESP32Boundary7") ++ (sl "\r\nContent-Disposition: form-data; name=\"photo\"; filename=\"image.jpg\"\r\nContent-Type: image/jpeg\r\n\r\nJPG\r\n" ++ ((sl "--" ++ sl "----ESP32Boundary7") ++ (sl "--\r\n"))))) hd (by decide)
  have c3 := splitOnSeq_cons (sl "--" ++ sl "----ESP32Boundary7")
    (sl "\r\n") (sl "\r\nContent-Disposition: form-data; name=\"photo\"; filename=\"image.jpg\"\r\nContent-Type: image/jpeg\r\n\r\nJPG\r\n" ++ ((sl "--" ++ sl "----ESP32Boundary7") ++ (sl "--\r\n"))) hd (by decide)
  have c4 := splitOnSeq_cons (sl "--" ++ sl "----ESP32Boundary7")
    (sl "\r\nContent-Disposition: form-data; name=\"photo\"; filename=\"image.jpg\"\r\nContent-Type: image/jpeg\r\n\r\nJPG\r\n") (sl "--\r\n") hd (by decide)
  have c5 := splitOnSeq_single (sl "--" ++ sl "----ESP32Boundary7") (sl "--\r\n") (by decide)
  unfold parseMultipart at hcontra
  rw [hsh, c0, c1, c2, c3, c4, c5] at hcontra
  simp at hcontra

/-- C7 amended: the assembled multipart payload is one contiguous buffer —
boundary-delimited recipient id, caption, and binary image in that order,
then the terminating boundary — whose total length is exactly
header-length + image-length + footer-length; and PROVIDED the boundary
token does not collide with the field contents (the non-collision
hypotheses below, one per part, as the spec's boundary proviso requires),
re-splitting the payload by its boundary token yields back the exact
recipient id, caption, and original image bytes. -/
theorem C7_multipart_roundtrip (b chat caption img : List Char)
    (h1 : ¬ (sl "--" ++ b) <:+:
      (sl "\r\nContent-Disposition: form-data; name=\"chat_id\"\r\n\r\n"
        ++ (chat ++ sl "\r\n")) ++ (sl "--" ++ b).dropLast)
    (h2 : ¬ (sl "--" ++ b) <:+:
      (sl "\r\nContent-Disposition: form-data; name=\"caption\"\r\n\r\n"
        ++ (caption ++ sl "\r\n")) ++ (sl "--" ++ b).dropLast)
    (h3 : ¬ (sl "--" ++ b) <:+:
      (sl "\r\nContent-Disposition: form-data; name=\"photo\"; filename=\"image.jpg\"\r\nContent-Type: image/jpeg\r\n\r\n"
        ++ (img ++ sl "\r\n")) ++ (sl "--" ++ b).dropLast)
    (h4 : ¬ (sl "--" ++ b) <:+: sl "--\r\n") :
    ((assembleMultipart b chat caption img).length
      = (multipartPre b chat caption).length + img.length
        + (multipartPost b).length) ∧
    parseMultipart b (assembleMultipart b chat caption img)
      = some (chat, caption, img) :=
  ⟨by simp [assembleMultipart, Nat.add_assoc],
   parseMultipart_assemble b chat caption img h1 h2 h3 h4⟩

theorem C7_multipart_roundtrip_witness :
    parseMultipart (sl "----ESP32Boundary7")
      (assembleMultipart (sl "----ESP32Boundary7") (sl "1111111111")
        (sl "Motion detected") (sl "JPGDATA"))
      = some (sl "1111111111", sl "Motion detected", sl "JPGDATA") :=
  (C7_multipart_roundtrip (sl "----ESP32Boundary7") (sl "1111111111")
    (sl "Motion detected") (sl "JPGDATA")
    (by decide) (by decide) (by decide) (by decide)).2

/-- Scans adjacent event pairs: true iff every copy of attempt `i`'s
buffer into the body is immediately followed by that buffer's release. -/
def freedRightAfterCopy (evs : List Ev) (i : Nat) : Bool :=
  (evs.zip (evs.drop 1)).all
    (fun p => !(p.1 == Ev.copyToBody i) || (p.2 == Ev.freeBuf i))

/-- C8 counterexample: in the upload-exhaustion run (fetch succeeds, three
uploads fail) the full event trace is alloc, copy, the three upload POSTs,
then the free: the source buffer is NOT released immediately after the
copy — the release happens only after the upload loop finishes. -/
theorem C8_not_immediate_free_cex :
    (sendAlertM (fun _ => none) (sl "http://10.28.158.71/jpg")
        ⟨[⟨200, 3, true, true, ⟨[⟨0, [1, 2, 3]⟩], none⟩⟩,
          ⟨200, 3, true, true, ⟨[⟨0, [1, 2, 3]⟩], none⟩⟩,
          ⟨200, 3, true, true, ⟨[⟨0, [1, 2, 3]⟩], none⟩⟩],
         true, [500, 500, 500], 50⟩).1
      = [.allocBuf 1, .copyToBody 1, .uploadPost 1, .uploadPost 2,
         .uploadPost 3, .freeBuf 1, .urlSend] ∧
    freedRightAfterCopy
      (sendAlertM (fun _ => none) (sl "http://10.28.158.71/jpg")
        ⟨[⟨200, 3, true, true, ⟨[⟨0, [1, 2, 3]⟩], none⟩⟩,
          ⟨200, 3, true, true, ⟨[⟨0, [1, 2, 3]⟩], none⟩⟩,
          ⟨200, 3, true, true, ⟨[⟨0, [1, 2, 3]⟩], none⟩⟩],
         true, [500, 500, 500], 50⟩).1 1 = false := by
  decide

/-- C8 amended: on every exit path of the photo-delivery sequence — fetch
failure, body-allocation failure, upload exhaustion, and upload success —
each fetched image buffer is released exactly once (the trace's count of
frees equals its count of allocations, and each attempt allocates at most
once); the fetched bytes are copied into the separately allocated body (at
most one copy, and only of a buffer that was allocated); but the source
buffer is NOT released immediately after the copy: on upload exhaustion
the trace is fetch events, the copy, the whole upload loop, and only then
the free. -/
theorem C8_buffer_release (parse : List Char → Option (List Char))
    (u : List Char) (net : NetScript) (j : Nat) :
    ((sendAlertM parse u net).1.count (.freeBuf j)
        = (sendAlertM parse u net).1.count (.allocBuf j)) ∧
    ((sendAlertM parse u net).1.count (.allocBuf j) ≤ 1) ∧
    ((sendAlertM parse u net).1.count (.copyToBody j)
        ≤ (sendAlertM parse u net).1.count (.allocBuf j)) ∧
    (∀ i2, u ≠ [] → isPrivateHttpUrl (resolvePhotoRef parse u) = true →
      net.bodyAllocOk = true →
      (fetchPhase net.fuel 1 (net.fetches.take 3)).2 = some i2 →
      (uploadLoop i2 1 (net.upCodes.take 3)).2 = false →
      (sendAlertM parse u net).1
        = (fetchPhase net.fuel 1 (net.fetches.take 3)).1
          ++ (.copyToBody i2 :: (uploadLoop i2 1 (net.upCodes.take 3)).1)
          ++ [.freeBuf i2, .urlSend]) := by
  rcases sendAlertM_spec parse u net with
    ⟨hu, heq⟩ |
    ⟨hu, hp, heq⟩ |
    ⟨hu, hp, hf2, heq⟩ |
    ⟨i, hu, hp, hf2, hb, heq⟩ |
    ⟨i, hu, hp, hf2, hb, hul, heq⟩ |
    ⟨i, hu, hp, hf2, hb, hul, heq⟩
  · refine ⟨?_, ?_, ?_, fun i2 hne _ _ _ _ => absurd hu hne⟩ <;>
      simp [heq, List.count_cons]
  · refine ⟨?_, ?_, ?_, fun i2 hne hpriv _ _ _ => ?_⟩
    · simp [heq, List.count_cons]
    · simp [heq, List.count_cons]
    · simp [heq, List.count_cons]
    · rw [hp] at hpriv; cases hpriv
  · have hno : (fetchPhase net.fuel 1 (net.fetches.take 3)).2 ≠ some j := by
      rw [hf2]; simp
    have hbal := fetchPhase_count_other net.fuel (net.fetches.take 3) 1 j hno
    have hle1 := fetchPhase_count_le_one net.fuel (net.fetches.take 3) 1 j
    have hcopy := fetchPhase_count_copy net.fuel (net.fetches.take 3) 1 j
    refine ⟨?_, ?_, ?_, fun i2 _ _ _ hfb _ => ?_⟩
    · simp [heq, List.count_append, List.count_cons, hbal]
    · simp only [heq, List.count_append]
      simp [List.count_cons]
      omega
    · simp only [heq, List.count_append]
      simp [List.count_cons, hcopy]
    · rw [hf2] at hfb; cases hfb
  · -- body allocation failure
    have hle1 := fetchPhase_count_le_one net.fuel (net.fetches.take 3) 1 j
    have hcopy := fetchPhase_count_copy net.fuel (net.fetches.take 3) 1 j
    by_cases hji : j = i
    · subst hji
      have hsome := fetchPhase_count_some net.fuel (net.fetches.take 3) 1 j hf2
      refine ⟨?_, ?_, ?_, fun i2 _ _ hb2 _ _ => ?_⟩
      · simp only [heq, List.count_append]
        simp [List.count_cons, hsome.1, hsome.2]
      · simp only [heq, List.count_append]
        simp [List.count_cons, hsome.1]
      · simp only [heq, List.count_append]
        simp [List.count_cons, hcopy, hsome.1]
      · rw [hb] at hb2; cases hb2
    · have hij : ¬ i = j := fun h => hji h.symm
      have hno : (fetchPhase net.fuel 1 (net.fetches.take 3)).2 ≠ some j := by
        rw [hf2]; simpa using hij
      have hbal := fetchPhase_count_other net.fuel (net.fetches.take 3) 1 j hno
      refine ⟨?_, ?_, ?_, fun i2 _ _ hb2 _ _ => ?_⟩
      · simp only [heq, List.count_append]
        simp [List.count_cons, hij, hbal]
      · simp only [heq, List.count_append]
        simp [List.count_cons, hij]
        omega
      · simp only [heq, List.count_append]
        simp [List.count_cons, hcopy]
      · rw [hb] at hb2; cases hb2
  · -- upload success
    have hful := uploadLoop_count_free i 1 (net.upCodes.take 3) j
    have halu := uploadLoop_count_alloc i 1 (net.upCodes.take 3) j
    have hcul := uploadLoop_count_copy i 1 (net.upCodes.take 3) j
    have hcopy := fetchPhase_count_copy net.fuel (net.fetches.take 3) 1 j
    by_cases hji : j = i
    · subst hji
      have hsome := fetchPhase_count_some net.fuel (net.fetches.take 3) 1 j hf2
      refine ⟨?_, ?_, ?_, fun i2 _ _ _ hfb hup2 => ?_⟩
      · simp only [heq, List.count_append, List.count_cons]
        simp [hsome.1, hsome.2, hful, hul, halu]
      · simp only [heq, List.count_append, List.count_cons]
        simp [hsome.1, halu]
      · simp only [heq, List.count_append, List.count_cons]
        simp [hcopy, hcul, hsome.1, halu]
      · rw [hf2] at hfb
        injection hfb with hfb
        subst hfb
        rw [hul] at hup2; cases hup2
    · have hij : ¬ i = j := fun h => hji h.symm
      have hno : (fetchPhase net.fuel 1 (net.fetches.take 3)).2 ≠ some j := by
        rw [hf2]; simpa using hij
      have hbal := fetchPhase_count_other net.fuel (net.fetches.take 3) 1 j hno
      have hle1 := fetchPhase_count_le_one net.fuel (net.fetches.take 3) 1 j
      refine ⟨?_, ?_, ?_, fun i2 _ _ _ hfb hup2 => ?_⟩
      · simp only [heq, List.count_append, List.count_cons]
        simp [hij, hbal, hful, hul, hji, halu]
      · simp only [heq, List.count_append, List.count_cons]
        simp [hij, halu]
        omega
      · simp only [heq, List.count_append, List.count_cons]
        simp [hij, hcopy, hcul]
      · rw [hf2] at hfb
        injection hfb with hfb
        subst hfb
        rw [hul] at hup2; cases hup2
  · -- upload exhaustion
    have hful := uploadLoop_count_free i 1 (net.upCodes.take 3) j
    have halu := uploadLoop_count_alloc i 1 (net.upCodes.take 3) j
    have hcul := uploadLoop_count_copy i 1 (net.upCodes.take 3) j
    have hcopy := fetchPhase_count_copy net.fuel (net.fetches.take 3) 1 j
    by_cases hji : j = i
    · subst hji
      have hsome := fetchPhase_count_some net.fuel (net.fetches.take 3) 1 j hf2
      refine ⟨?_, ?_, ?_, fun i2 _ _ _ hfb _ => ?_⟩
      · simp only [heq, List.count_append, List.count_cons]
        simp [hsome.1, hsome.2, hful, hul, halu]
      · simp only [heq, List.count_append, List.count_cons]
        simp [hsome.1, halu]
      · simp only [heq, List.count_append, List.count_cons]
        simp [hcopy, hcul, hsome.1, halu]
      · rw [hf2] at hfb
        injection hfb with hfb
        subst hfb
        rw [heq]
    · have hij : ¬ i = j := fun h => hji h.symm
      have hno : (fetchPhase net.fuel 1 (net.fetches.take 3)).2 ≠ some j := by
        rw [hf2]; simpa using hij
      have hbal := fetchPhase_count_other net.fuel (net.fetches.take 3) 1 j hno
      have hle1 := fetchPhase_count_le_one net.fuel (net.fetches.take 3) 1 j
      refine ⟨?_, ?_, ?_, fun i2 _ _ _ hfb _ => ?_⟩
      · simp only [heq, List.count_append, List.count_cons]
        simp [hij, hji, hbal, hful, hul, halu]
      · simp only [heq, List.count_append, List.count_cons]
        simp [hij, halu]
        omega
      · simp only [heq, List.count_append, List.count_cons]
        simp [hij, hcopy, hcul]
      · rw [hf2] at hfb
        injection hfb with hfb
        subst hfb
        rw [heq]

theorem C8_buffer_release_witness :
    ((sendAlertM (fun _ => none) (sl "http://10.28.158.71/jpg")
        ⟨[⟨200, 3, true, true, ⟨[⟨0, [1, 2, 3]⟩], none⟩⟩,
          ⟨200, 3, true, true, ⟨[⟨0, [1, 2, 3]⟩], none⟩⟩,
          ⟨200, 3, true, true, ⟨[⟨0, [1, 2, 3]⟩], none⟩⟩],
         true, [500, 500, 500], 50⟩).1.count (.freeBuf 1)
      = (sendAlertM (fun _ => none) (sl "http://10.28.158.71/jpg")
        ⟨[⟨200, 3, true, true, ⟨[⟨0, [1, 2, 3]⟩], none⟩⟩,
          ⟨200, 3, true, true, ⟨[⟨0, [1, 2, 3]⟩], none⟩⟩,
          ⟨200, 3, true, true, ⟨[⟨0, [1, 2, 3]⟩], none⟩⟩],
         true, [500, 500, 500], 50⟩).1.count (.allocBuf 1)) ∧
    (sendAlertM (fun _ => none) (sl "http://10.28.158.71/jpg")
        ⟨[⟨200, 3, true, true, ⟨[⟨0, [1, 2, 3]⟩], none⟩⟩,
          ⟨200, 3, true, true, ⟨[⟨0, [1, 2, 3]⟩], none⟩⟩,
          ⟨200, 3, true, true, ⟨[⟨0, [1, 2, 3]⟩], none⟩⟩],
         true, [500, 500, 500], 50⟩).1
      = (fetchPhase 50 1
          ([⟨200, 3, true, true, ⟨[⟨0, [1, 2, 3]⟩], none⟩⟩,
            ⟨200, 3, true, true, ⟨[⟨0, [1, 2, 3]⟩], none⟩⟩,
            ⟨200, 3, true, true, ⟨[⟨0, [1, 2, 3]⟩], none⟩⟩].take 3)).1
        ++ (.copyToBody 1 :: (uploadLoop 1 1 ([500, 500, 500].take 3)).1)
        ++ [.freeBuf 1, .urlSend] := by
  have h := C8_buffer_release (fun _ => none) (sl "http://10.28.158.71/jpg")
    ⟨[⟨200, 3, true, true, ⟨[⟨0, [1, 2, 3]⟩], none⟩⟩,
      ⟨200, 3, true, true, ⟨[⟨0, [1, 2, 3]⟩], none⟩⟩,
      ⟨200, 3, true, true, ⟨[⟨0, [1, 2, 3]⟩], none⟩⟩],
     true, [500, 500, 500], 50⟩ 1
  exact ⟨h.1, h.2.2.2 1 (by decide) (by decide) rfl (by decide) (by decide)⟩
